import Mathlib

/-!
Verification of the CANdor I/O core against its specification.

The Rust sources under `src-tauri/src/io` are shallowly embedded below:
machine integers become `Nat` (with explicit `% 2^w` where wrapping matters),
byte buffers become `List Nat`, fallible functions return `Option`/`Except`,
and the stateful parse loop of `parse_gvret_frames` becomes a fuel-indexed
recursion (the fuel is the buffer length; every loop iteration of the source
consumes at least one buffer byte, so this fuel is always sufficient).
-/

namespace CANdor

/-- Modelled from the spec: the universal in-core record `FrameMessage`.  Its
declaration lives in the io module root, which is not among the extracted
sources; the field names and types are taken from the spec data model and from
the construction sites in `gvret_common.rs`, `slcan.rs` and `gvret_tcp.rs`. -/
structure FrameMessage where
  protocol : String
  timestamp_us : Nat
  frame_id : Nat
  bus : Nat
  dlc : Nat
  bytes : List Nat
  is_extended : Bool
  is_fd : Bool
  source_address : Option Nat
  incomplete : Option Bool
  direction : Option String
deriving Repr, DecidableEq

/-- Modelled from the spec: the outbound transmit request `CanTransmitFrame`
(declared in the io module root, not among the extracted sources); field names
are visible at every construction site in the extracted tests and devices. -/
structure CanTransmitFrame where
  frame_id : Nat
  data : List Nat
  bus : Nat
  is_extended : Bool
  is_fd : Bool
  is_brs : Bool
  is_rtr : Bool
deriving Repr, DecidableEq

/-- Modelled from the spec: the `TransmitResult` record (declared in the io
module root).  `TransmitResult::success()` carries `success = true` and a
creation timestamp, `TransmitResult::error(msg)` carries the message. -/
structure TransmitResult where
  success : Bool
  message : Option String
  timestamp_us : Nat
deriving Repr, DecidableEq

/-- `TransmitResult::success()` at host time `ts`. -/
def TransmitResult.ok (ts : Nat) : TransmitResult :=
  { success := true, message := none, timestamp_us := ts }

/-- `TransmitResult::error(msg)` at host time `ts`. -/
def TransmitResult.err (ts : Nat) (msg : String) : TransmitResult :=
  { success := false, message := some msg, timestamp_us := ts }

/-! ## GVRET codec (`gvret_common.rs`) -/

/-- Extended frame flag (bit 31 of the frame id), `CAN_EFF_FLAG`. -/
def CAN_EFF_FLAG : Nat := 0x80000000

/-- Mask for standard (11-bit) CAN ids, `CAN_SFF_MASK`. -/
def CAN_SFF_MASK : Nat := 0x7FF

/-- Mask for extended (29-bit) CAN ids, `CAN_EFF_MASK`. -/
def CAN_EFF_MASK : Nat := 0x1FFFFFFF

/-- GVRET sync byte `0xF1`. -/
def GVRET_SYNC : Nat := 0xF1

/-- GVRET frame command byte `0x00`. -/
def GVRET_CMD_FRAME : Nat := 0x00

/-- DLC-nibble to payload length table `DLC_LEN` from `gvret_common.rs`. -/
def DLC_LEN : List Nat := [0, 1, 2, 3, 4, 5, 6, 7, 8, 12, 16, 20, 24, 32, 48, 64]

/-- Little-endian byte decomposition of a `u32` (`u32::to_le_bytes`). -/
def u32ToLeBytes (n : Nat) : List Nat :=
  [n % 256, n / 256 % 256, n / 65536 % 256, n / 16777216 % 256]

/-- Lowercase hex encoding of a byte buffer (`hex::ToHex::encode_hex`). -/
def hexEncode (bs : List Nat) : String :=
  String.mk (bs.flatMap (fun b => [Nat.digitChar (b / 16), Nat.digitChar (b % 16)]))

/-- Fixed control-record lengths recognised by the GVRET parser
(`TIMEBASE`, `KEEPALIVE`, `CANPARAMS`, `DEVINFO`, `NUMBUSES`). -/
def ctrlLen (op : Nat) : Option Nat :=
  if op = 0x01 then some 6
  else if op = 0x09 then some 4
  else if op = 0x06 then some 12
  else if op = 0x07 then some 7
  else if op = 0x0C then some 3
  else none

/-- One pass of the `parse_gvret_frames` loop, fuel-indexed.  Each iteration of
the Rust loop first scans forward to the sync byte `0xF1` (dropping the bytes
before it), clears an over-long sync-less buffer, skips control records,
resynchronises on unknown opcodes, and extracts complete frame records.  The
masks `& 0x80000000`, `& 0x1FFFFFFF`, `& 0x7FF`, `& 0x0F` and the shift
`>> 4` of the source are written as the equivalent `/`, `%` arithmetic. -/
def parseGvretAux (ts : Nat) : Nat → List Nat → List (FrameMessage × String) × List Nat
  | 0, buffer =>
    let buf := buffer.dropWhile (fun b => b ≠ 241)
    if buf.isEmpty then ([], if buffer.length > 1024 then [] else buffer) else ([], buf)
  | fuel + 1, buffer =>
    let buf := buffer.dropWhile (fun b => b ≠ 241)
    if buf.isEmpty then ([], if buffer.length > 1024 then [] else buffer)
    else if buf.length < 2 then ([], buf)
    else
      let op := buf.getD 1 0
      match ctrlLen op with
      | some len =>
        if buf.length < len then ([], buf)
        else parseGvretAux ts fuel (buf.drop len)
      | none =>
        if op ≠ 0 then parseGvretAux ts fuel (buf.drop 1)
        else if buf.length < 11 then ([], buf)
        else
          let busDlc := buf.getD 10 0
          let dlcNibble := busDlc % 16
          if dlcNibble > 15 then parseGvretAux ts fuel (buf.drop 1)
          else
            let payloadLen := DLC_LEN.getD dlcNibble 0
            let totalLen := 11 + payloadLen
            if buf.length < totalLen then ([], buf)
            else
              let canId := buf.getD 6 0 + buf.getD 7 0 * 256 + buf.getD 8 0 * 65536 +
                buf.getD 9 0 * 16777216
              let isExt := decide (canId / 2147483648 % 2 = 1)
              let arbId := if isExt then canId % 536870912 else canId % 2048
              let fr : FrameMessage :=
                { protocol := "can", timestamp_us := ts, frame_id := arbId,
                  bus := busDlc / 16 % 16, dlc := payloadLen,
                  bytes := (buf.drop 11).take payloadLen,
                  is_extended := isExt, is_fd := decide (8 < payloadLen),
                  source_address := none, incomplete := none, direction := none }
              let rest := parseGvretAux ts fuel (buf.drop totalLen)
              ((fr, hexEncode (buf.take totalLen)) :: rest.1, rest.2)

/-- `parse_gvret_frames`: parse GVRET binary frames out of a buffer, returning
the extracted `(FrameMessage, raw-hex)` pairs together with the residue left in
the (mutable, in the source) buffer.  The host timestamp `now_us()` is passed
in as `ts`. -/
def parse_gvret_frames (ts : Nat) (buffer : List Nat) : List (FrameMessage × String) × List Nat :=
  parseGvretAux ts buffer.length buffer

/-- `encode_gvret_frame`: encode a CAN frame into the GVRET transmit format
`[0xF1][0x00][id:4 LE][bus:1][len:1][data]`.  The `data.len() as u8` cast of
the source is the `% 256`. -/
def encode_gvret_frame (f : CanTransmitFrame) : List Nat :=
  let frameId := if f.is_extended then f.frame_id ||| CAN_EFF_FLAG else f.frame_id % 2048
  [GVRET_SYNC, GVRET_CMD_FRAME] ++ u32ToLeBytes frameId ++ [f.bus, f.data.length % 256] ++ f.data

/-- `validate_gvret_frame`: checks performed before a GVRET transmit; `some`
is the error message carried by the returned `TransmitResult::error`. -/
def validate_gvret_frame (f : CanTransmitFrame) : Option String :=
  if !f.is_fd ∧ f.data.length > 8 then
    some ("Classic CAN frame data too long: " ++ toString f.data.length ++ " bytes (max 8)")
  else if f.is_fd ∧ f.data.length > 64 then
    some ("CAN FD frame data too long: " ++ toString f.data.length ++ " bytes (max 64)")
  else if f.bus > 4 then
    some ("Invalid bus number: " ++ toString f.bus ++ " (valid: 0-4)")
  else none

/-- A well-formed GVRET receive-format frame record: the sync byte, the frame
opcode, four timestamp bytes, four id bytes, one combined bus/DLC byte and
exactly `DLC_LEN[dlc_nibble]` payload bytes, all byte-valued. -/
def WFGvretRec (rec : List Nat) : Prop :=
  rec.getD 0 0 = 241 ∧ rec.getD 1 0 = 0 ∧
  rec.length = 11 + DLC_LEN.getD (rec.getD 10 0 % 16) 0 ∧ ∀ b ∈ rec, b < 256

instance (rec : List Nat) : Decidable (WFGvretRec rec) := by
  unfold WFGvretRec
  infer_instance

/-- The frame the GVRET parser extracts from a well-formed record (the same
field formulas as `parse_gvret_frames`). -/
def gvretFrameOfRec (ts : Nat) (rec : List Nat) : FrameMessage :=
  let busDlc := rec.getD 10 0
  let payloadLen := DLC_LEN.getD (busDlc % 16) 0
  let canId := rec.getD 6 0 + rec.getD 7 0 * 256 + rec.getD 8 0 * 65536 +
    rec.getD 9 0 * 16777216
  let isExt := decide (canId / 2147483648 % 2 = 1)
  { protocol := "can", timestamp_us := ts,
    frame_id := if isExt then canId % 536870912 else canId % 2048,
    bus := busDlc / 16 % 16, dlc := payloadLen, bytes := (rec.drop 11).take payloadLen,
    is_extended := isExt, is_fd := decide (8 < payloadLen),
    source_address := none, incomplete := none, direction := none }

/-- The GVRET receive-format record (documented in the `gvret_common.rs`
header and in the spec) that carries the same frame-id encoding as
`encode_gvret_frame`, together with a 4-byte timestamp and the combined
`(bus << 4) | dlc_nibble` byte.  The round trip of C2 holds through this
record, not through the transmit-format output of `encode_gvret_frame`. -/
def gvret_rx_record (ts4 : List Nat) (f : CanTransmitFrame) (nib : Nat) : List Nat :=
  [241, 0] ++ ts4 ++
  u32ToLeBytes (if f.is_extended then f.frame_id ||| CAN_EFF_FLAG else f.frame_id % 2048) ++
  [f.bus * 16 + nib] ++ f.data

/-! ## slcan codec (`slcan.rs`, plus the multi-source encoder from
`multi_source.rs`) -/

/-- Hex value of an ASCII byte, as accepted by both `char::to_digit(16)` and
the digit loop of `u32::from_str_radix(_, 16)`. -/
def hexDigitVal? (b : Nat) : Option Nat :=
  if 48 ≤ b ∧ b ≤ 57 then some (b - 48)
  else if 97 ≤ b ∧ b ≤ 102 then some (b - 87)
  else if 65 ≤ b ∧ b ≤ 70 then some (b - 55)
  else none

/-- Accumulated value of a run of hex digits; `none` as soon as a byte is not
an ASCII hex digit. -/
def hexListVal? (bs : List Nat) : Option Nat :=
  bs.foldl
    (fun acc b =>
      match acc, hexDigitVal? b with
      | some v, some d => some (v * 16 + d)
      | _, _ => none)
    (some 0)

/-- Model of `uN::from_str_radix(s, 16)` on a byte slice, with `bound = 2^N`:
an optional leading `+` or `-` sign followed by at least one hex digit; a `-`
sign underflows on any non-zero digit (so only a string of zeros is accepted);
values reaching `bound` overflow. -/
def fromStrRadix16? (bound : Nat) (bs : List Nat) : Option Nat :=
  match bs with
  | [] => none
  | b :: rest =>
    if b = 43 then
      if rest.isEmpty then none
      else (hexListVal? rest).bind (fun v => if v < bound then some v else none)
    else if b = 45 then
      if rest.isEmpty then none
      else (hexListVal? rest).bind (fun v => if v = 0 then some 0 else none)
    else (hexListVal? bs).bind (fun v => if v < bound then some v else none)

/-- Parse `dlc` consecutive two-hex-digit bytes starting at `start`
(the data loop of `parse_slcan_frame`; each pair goes through
`u8::from_str_radix`). -/
def parseHexBytes (line : List Nat) (start : Nat) : Nat → Option (List Nat)
  | 0 => some []
  | n + 1 =>
    match fromStrRadix16? 256 ((line.drop start).take 2), parseHexBytes line (start + 2) n with
    | some b, some bs => some (b :: bs)
    | _, _ => none

/-- The `(is_extended, is_rtr)` pair determined by the first byte of an slcan
line: `t` standard data, `T` extended data, `r` standard RTR, `R` extended
RTR; anything else is not a frame. -/
def slcanFlags (b0 : Nat) : Option (Bool × Bool) :=
  if b0 = 116 then some (false, false)
  else if b0 = 84 then some (true, false)
  else if b0 = 114 then some (false, true)
  else if b0 = 82 then some (true, true)
  else none

/-- The part of `parse_slcan_frame` after the prefix byte has determined the
`(is_extended, is_rtr)` pair: id, DLC digit and (for non-RTR frames) data. -/
def parseSlcanBody (ts : Nat) (line : List Nat) (isExt isRtr : Bool) : Option FrameMessage :=
  let idLen := if isExt then 8 else 3
  let minLen := 1 + idLen + 1
  if line.length < minLen then none
  else
    match fromStrRadix16? 4294967296 ((line.drop 1).take idLen) with
    | none => none
    | some frameId =>
      match hexDigitVal? (line.getD (1 + idLen) 0) with
      | none => none
      | some dlc =>
        if dlc > 8 then none
        else
          let dataStart := 1 + idLen + 1
          let mk : List Nat → FrameMessage := fun data =>
            { protocol := "can", timestamp_us := ts, frame_id := frameId, bus := 0,
              dlc := dlc, bytes := data, is_extended := isExt, is_fd := false,
              source_address := none, incomplete := none, direction := none }
          if isRtr = false ∧ dlc > 0 then
            if line.length < dataStart + dlc * 2 then none
            else (parseHexBytes line dataStart dlc).map mk
          else some (mk [])

/-- `parse_slcan_frame`: parse one slcan ASCII line (given as its byte
sequence, `line.as_bytes()` in the source) into a `FrameMessage`.  The host
timestamp `now_us()` is passed in as `ts`. -/
def parse_slcan_frame (ts : Nat) (line : List Nat) : Option FrameMessage :=
  match line with
  | [] => none
  | b0 :: _ =>
    match slcanFlags b0 with
    | none => none
    | some (isExt, isRtr) => parseSlcanBody ts line isExt isRtr

/-- Uppercase hex digit of a nibble, as produced by the format specifier
`{:X}` (as an ASCII byte). -/
def hexUpperDigit (n : Nat) : Nat :=
  if n < 10 then n + 48 else n + 55

/-- Least-significant-first uppercase hex digits of `n` (fuel-indexed; any
fuel at least `n` is sufficient, and the callers pass `n` itself). -/
def natHexRevAux : Nat → Nat → List Nat
  | 0, _ => []
  | fuel + 1, n => if n = 0 then [] else hexUpperDigit (n % 16) :: natHexRevAux fuel (n / 16)

/-- ASCII bytes printed by `{:X}` for `n` (uppercase, no padding; `0` prints
as `0`). -/
def natHexUpper (n : Nat) : List Nat :=
  if n = 0 then [48] else (natHexRevAux n n).reverse

/-- ASCII bytes printed by a zero-padded uppercase hex format such as
`{:03X}` (pad with `0` up to `width`, never truncate). -/
def formatHexPad (width n : Nat) : List Nat :=
  List.replicate (width - (natHexUpper n).length) 48 ++ natHexUpper n

/-- `encode_slcan_frame`: encode a `FrameMessage` as an slcan ASCII command
(returned as its byte sequence, trailing CR included).  Standard ids are
masked with `& 0x7FF` (written `% 2048`), the DLC digit is `dlc.min(8)`, and
every byte of `bytes` is printed (no truncation). -/
def encode_slcan_frame (f : FrameMessage) : List Nat :=
  (if f.is_extended then 84 :: formatHexPad 8 f.frame_id
   else 116 :: formatHexPad 3 (f.frame_id % 2048)) ++
  natHexUpper (min f.dlc 8) ++
  f.bytes.flatMap (fun b => formatHexPad 2 b) ++ [13]

/-- `encode_slcan_transmit_frame` (from `multi_source.rs`): encode a
`CanTransmitFrame` as an slcan ASCII command; here the DLC is
`data.len().min(8)` and the data is truncated to that many bytes. -/
def encode_slcan_transmit_frame (f : CanTransmitFrame) : List Nat :=
  (if f.is_extended then 84 :: formatHexPad 8 f.frame_id
   else 116 :: formatHexPad 3 (f.frame_id % 2048)) ++
  natHexUpper (min f.data.length 8) ++
  (f.data.take (min f.data.length 8)).flatMap (fun b => formatHexPad 2 b) ++ [13]

/-- The `FrameMessage` that `SlcanReader::transmit_frame` builds from a
`CanTransmitFrame` before encoding it (note `dlc = data.len() as u8`,
modelled as `% 256`). -/
def slcanFrameMessageOfTransmit (ts : Nat) (f : CanTransmitFrame) : FrameMessage :=
  { protocol := "can", timestamp_us := ts, frame_id := f.frame_id, bus := f.bus,
    dlc := f.data.length % 256, bytes := f.data, is_extended := f.is_extended,
    is_fd := f.is_fd, source_address := none, incomplete := none,
    direction := some "tx" }

/-! ## Buffer reader: seek and snapshot (`buffer.rs`) -/

/-- Placeholder frame used as the (never-read) default of `List.getD`. -/
def dfltFrame : FrameMessage :=
  { protocol := "", timestamp_us := 0, frame_id := 0, bus := 0, dlc := 0, bytes := [],
    is_extended := false, is_fd := false, source_address := none, incomplete := none,
    direction := none }

/-- Value of a `u64` reinterpreted as an `i64` (`timestamp_us as i64`). -/
def toI64 (n : Nat) : Int :=
  if n % 18446744073709551616 < 9223372036854775808 then (n % 18446744073709551616 : Int)
  else (n % 18446744073709551616 : Int) - 18446744073709551616

/-- Core loop of the standard library `slice::binary_search_by`, fuel-indexed
(`left < right` loop with `mid = left + size / 2`; the fuel passed by
`binarySearchBy` always suffices because `right - left` shrinks every
iteration). -/
def bsAux (cmp : Nat → Ordering) : Nat → Nat → Nat → Except Nat Nat
  | 0, left, _ => Except.error left
  | fuel + 1, left, right =>
    if left < right then
      let mid := left + (right - left) / 2
      match cmp mid with
      | Ordering.lt => bsAux cmp fuel (mid + 1) right
      | Ordering.gt => bsAux cmp fuel left mid
      | Ordering.eq => Except.ok mid
    else Except.error left

/-- Model of `slice::binary_search_by` on indices `0..len`:
`Except.ok i` is `Ok(i)` (a matching index), `Except.error i` is `Err(i)`
(the insertion point). -/
def binarySearchBy (cmp : Nat → Ordering) (len : Nat) : Except Nat Nat :=
  bsAux cmp (len + 1) 0 len

/-- Number of distinct frame ids in the buffer (the `HashSet` of
`build_snapshot`). -/
def distinctIdCount (frames : List FrameMessage) : Nat :=
  ((frames.map (fun f => f.frame_id)).dedup).length

/-- The `snapshot.entry(id).or_insert_with(..)` step: keep the first
occurrence of each key. -/
def insertIfAbsent (acc : List (Nat × FrameMessage)) (fr : FrameMessage) :
    List (Nat × FrameMessage) :=
  if (acc.lookup fr.frame_id).isSome then acc else acc ++ [(fr.frame_id, fr)]

/-- The backward walk of `build_snapshot` from index `i` down to `0`: stop at
the first frame more than 120 s older than the frame at the seek position,
collect the most recent frame per id, and stop early once every id seen in
the buffer has been covered. -/
def snapWalk (frames : List FrameMessage) (targetTs allIds : Nat) :
    Nat → List (Nat × FrameMessage) → List (Nat × FrameMessage)
  | i, acc =>
    let fr := frames.getD i dfltFrame
    if targetTs > fr.timestamp_us ∧ targetTs - fr.timestamp_us > 120000000 then acc
    else
      let acc' := insertIfAbsent acc fr
      if acc'.length = allIds then acc'
      else
        match i with
        | 0 => acc'
        | j + 1 => snapWalk frames targetTs allIds j acc'

/-- One step of a stable insertion sort on `frame_id` (used to model the
`sort_by_key` call of `build_snapshot`). -/
def sortInsert (f : FrameMessage) : List FrameMessage → List FrameMessage
  | [] => [f]
  | g :: rest => if f.frame_id ≤ g.frame_id then f :: g :: rest else g :: sortInsert f rest

/-- Stable sort by `frame_id`, modelling the `sort_by_key(|f| f.frame_id)` of
`build_snapshot`.  Since the kept keys are distinct, the sorted output is
independent of the hash order and of the concrete sorting algorithm, so any
stable comparison sort models the source faithfully. -/
def sortByFrameId (l : List FrameMessage) : List FrameMessage :=
  l.foldr sortInsert []

/-- `build_snapshot`: most recent frame per unique id at or before
`up_to_index`, within a 120-second lookback window, sorted by `frame_id`.
(The source collects into a `HashMap` and then sorts with `sort_by_key`.) -/
def build_snapshot (frames : List FrameMessage) (upTo : Nat) : List FrameMessage :=
  if frames.isEmpty ∨ frames.length ≤ upTo then []
  else
    let allIds := distinctIdCount frames
    let targetTs := (frames.getD upTo dfltFrame).timestamp_us
    let pairs := snapWalk frames targetTs allIds upTo []
    sortByFrameId (pairs.map Prod.snd)

/-- Modelled from the spec: events the buffer reader pushes into the
session-scoped sink.  `frameBatch` is an `emit_to_session("frame-message", ..)`
of the pending batch, `playbackTime` a `"playback-time"` event, and
`snapshotBatch` the `emit_frames` call made for a seek-while-paused
snapshot. -/
inductive BufferEvent where
  | frameBatch (frames : List FrameMessage)
  | playbackTime (t : Int)
  | snapshotBatch (frames : List FrameMessage)
deriving Repr, DecidableEq

/-- The seek-handling branch of `run_buffer_stream` (lines 360-416 of
`buffer.rs`): binary-search the seek target, clamp to the last frame, flush
any pending batch, emit the new playback position and - when paused - the
non-empty snapshot.  Returns the emitted events in order together with the
new `frame_index`. -/
def seekEvents (frames pending : List FrameMessage) (seekTarget : Int) (paused : Bool) :
    List BufferEvent × Nat :=
  let res := binarySearchBy
    (fun i => compare (toI64 ((frames.getD i dfltFrame).timestamp_us)) seekTarget)
    frames.length
  let targetIdx := match res with
    | Except.ok i => i
    | Except.error i => min i (frames.length - 1)
  let flushEvents := if pending.isEmpty then [] else [BufferEvent.frameBatch pending]
  match frames.get? targetIdx with
  | none => (flushEvents, targetIdx)
  | some f =>
    let snapEvents :=
      if paused then
        let snap := build_snapshot frames targetIdx
        if snap.isEmpty then [] else [BufferEvent.snapshotBatch snap]
      else []
    (flushEvents ++ [BufferEvent.playbackTime (toI64 f.timestamp_us)] ++ snapEvents, targetIdx)

/-! ## Timeline control (`timeline_base.rs`) and `BufferReader::set_speed`
(`buffer.rs`).  The `f64` speed is modelled as a rational: `set_speed` only
compares the speed with zero, and those comparisons agree with the rational
order on every non-NaN float. -/

/-- The four atomics of `TimelineControl`. -/
structure TimelineControlState where
  cancel_flag : Bool
  pause_flag : Bool
  pacing_enabled : Bool
  speed : Rat
deriving Repr, DecidableEq

/-- `TimelineControl::set_speed`: negative speeds are rejected, zero disables
pacing (leaving the stored speed), positive enables pacing and stores the
speed. -/
def TimelineControl.set_speed (st : TimelineControlState) (speed : Rat) :
    Except String TimelineControlState :=
  if speed < 0 then Except.error "Speed cannot be negative"
  else if speed = 0 then Except.ok { st with pacing_enabled := false }
  else Except.ok { st with pacing_enabled := true, speed := speed }

/-- The control atomics held by `BufferReader` that `set_speed` can touch. -/
structure BufferReaderControl where
  cancel_flag : Bool
  pause_flag : Bool
  pacing_enabled : Bool
  speed : Rat
  seek_target_us : Int
  completed_flag : Bool
deriving Repr, DecidableEq

/-- `BufferReader::set_speed` (identical branch structure). -/
def BufferReader.set_speed (st : BufferReaderControl) (speed : Rat) :
    Except String BufferReaderControl :=
  if speed < 0 then Except.error "Speed cannot be negative"
  else if speed = 0 then Except.ok { st with pacing_enabled := false }
  else Except.ok { st with pacing_enabled := true, speed := speed }

/-! ## Profile usage registry (`profile_tracker.rs`) -/

/-- The profile kinds that require exclusive single-handle access. -/
def SINGLE_HANDLE_KINDS : List String := ["slcan", "serial"]

/-- `can_use_profile` over the `PROFILE_USAGE` map (modelled as an association
list from profile id to the using session id).  The quote marks that the
source puts around the session id in the message are omitted here. -/
def can_use_profile (usage : List (String × String)) (profile_id profile_kind : String) :
    Except String Unit :=
  if ¬ SINGLE_HANDLE_KINDS.contains profile_kind then Except.ok ()
  else
    match usage.lookup profile_id with
    | some sessionId =>
      Except.error ("Profile is in use by session " ++ sessionId ++ ". Stop that session first.")
    | none => Except.ok ()

/-! ## Multi-source merger: transmit routing (`multi_source.rs`) -/

/-- Modelled from the spec: a bus mapping `(device_bus, output_bus, enabled)`
(the `BusMapping` declaration lives in a module that is not among the
extracted sources; the field names appear at every use site in
`multi_source.rs`). -/
structure BusMapping where
  device_bus : Nat
  output_bus : Nat
  enabled : Bool
deriving Repr, DecidableEq

/-- `SourceConfig` for one source of a multi-source session (the fields used
by the transmit-routing code). -/
structure SourceConfig where
  profile_id : String
  profile_kind : String
  display_name : String
  bus_mappings : List BusMapping
deriving Repr, DecidableEq

/-- `TransmitRoute`: where a transmit for an output bus goes. -/
structure TransmitRoute where
  source_idx : Nat
  profile_id : String
  profile_kind : String
  device_bus : Nat
deriving Repr, DecidableEq

/-- `HashMap::insert` on an association list: replace any entry with the same
key. -/
def insertRoute (m : List (Nat × TransmitRoute)) (k : Nat) (v : TransmitRoute) :
    List (Nat × TransmitRoute) :=
  m.filter (fun p => p.1 ≠ k) ++ [(k, v)]

/-- One mapping of one source, as processed by the routing-table construction
in `MultiSourceReader::new`: enabled mappings insert
`output_bus -> TransmitRoute`, disabled ones are skipped. -/
def addMapping (idx : Nat) (src : SourceConfig) (m : List (Nat × TransmitRoute))
    (mp : BusMapping) : List (Nat × TransmitRoute) :=
  if mp.enabled then
    insertRoute m mp.output_bus
      { source_idx := idx, profile_id := src.profile_id,
        profile_kind := src.profile_kind, device_bus := mp.device_bus }
  else m

/-- All mappings of one enumerated source. -/
def addSource (m : List (Nat × TransmitRoute)) (p : Nat × SourceConfig) :
    List (Nat × TransmitRoute) :=
  p.2.bus_mappings.foldl (addMapping p.1 p.2) m

/-- The transmit routing table built by `MultiSourceReader::new`: for every
source (in order) and every enabled mapping, insert
`output_bus -> TransmitRoute`. -/
def buildTransmitRoutes (sources : List SourceConfig) : List (Nat × TransmitRoute) :=
  (sources.enum).foldl addSource []

/-- `encode_gs_usb_frame` (from `multi_source.rs`): the 20-byte gs_usb host
frame.  The `can_id_flags` constants are modelled from the spec (bit 31
extended, bit 30 RTR). -/
def encode_gs_usb_frame (f : CanTransmitFrame) (echoId : Nat) : List Nat :=
  let c1 := if f.is_extended then f.frame_id ||| 0x80000000 else f.frame_id
  let canId := if f.is_rtr then c1 ||| 0x40000000 else c1
  let dl := min f.data.length 8
  u32ToLeBytes echoId ++ u32ToLeBytes canId ++ [dl, 0, 0, 0] ++
    (f.data.take dl ++ List.replicate (8 - dl) 0)

/-- `encode_socketcan_frame` (from `multi_source.rs`): the 16-byte kernel
`can_frame`.  `to_ne_bytes` is modelled as little-endian (the byte order of
every target the crate builds for). -/
def encode_socketcan_frame (f : CanTransmitFrame) : List Nat :=
  let c1 := if f.is_extended then f.frame_id ||| 0x80000000 else f.frame_id
  let canId := if f.is_rtr then c1 ||| 0x40000000 else c1
  let dl := min f.data.length 8
  u32ToLeBytes canId ++ [dl, 0, 0, 0] ++ (f.data.take dl ++ List.replicate (8 - dl) 0)

/-- `MultiSourceReader::transmit_frame`, modelled up to the channel send: the
route table and the set of connected source indices (the keys of the shared
transmit-channel map) are the state; the result carries the `TransmitResult`
returned to the caller together with the send effects
`(source_idx, encoded bytes)` placed on a transmit channel.  The reply-wait
and its 500 ms deadline are concurrency and are outside this model, as are
the platform `cfg` gates on the gs_usb/socketcan arms.  Error messages keep
the source text up to the debug-formatted route-key list and the quoted
profile id. -/
def MultiSourceReader.transmit_frame (routes : List (Nat × TransmitRoute))
    (channels : List Nat) (ts : Nat) (f : CanTransmitFrame) :
    Except String (TransmitResult × List (Nat × List Nat)) :=
  match routes.lookup f.bus with
  | none =>
    Except.error ("No source configured for bus " ++ toString f.bus ++
      " (available: " ++ toString (routes.map Prod.fst) ++ ")")
  | some route =>
    let routed := { f with bus := route.device_bus }
    if route.source_idx ∈ channels then
      if route.profile_kind = "gvret_tcp" ∨ route.profile_kind = "gvret_usb" then
        match validate_gvret_frame routed with
        | some msg => Except.ok (TransmitResult.err ts msg, [])
        | none =>
          Except.ok (TransmitResult.ok ts, [(route.source_idx, encode_gvret_frame routed)])
      else if route.profile_kind = "gs_usb" then
        Except.ok (TransmitResult.ok ts, [(route.source_idx, encode_gs_usb_frame routed 0)])
      else if route.profile_kind = "slcan" then
        Except.ok (TransmitResult.ok ts, [(route.source_idx, encode_slcan_transmit_frame routed)])
      else if route.profile_kind = "socketcan" then
        Except.ok (TransmitResult.ok ts, [(route.source_idx, encode_socketcan_frame routed)])
      else
        Except.error ("Unsupported profile kind " ++ route.profile_kind ++ " for transmission")
    else
      Except.error ("No transmit channel for source " ++ toString route.source_idx ++
        " (profile " ++ route.profile_id ++
        ") - source may not support transmit or not yet connected")

/-! ## Device transmit paths and their effect traces (`gvret_tcp.rs`,
`gvret_usb.rs`, `slcan.rs`) -/

/-- Modelled from the spec: the externally visible effects of a device
transmit, in program order - a write of encoded bytes towards the device, an
append to the shared buffer store (`buffer_store::append_frames`), and an
emission to the session sink (`emit_frames`). -/
inductive TransmitEffect where
  | deviceWrite (data : List Nat)
  | bufferAppend (frames : List FrameMessage)
  | emitFrames (frames : List FrameMessage)
deriving Repr, DecidableEq

/-- The `direction="tx"` echo `FrameMessage` built by
`GvretReader::transmit_frame` and `GvretUsbReader::transmit_frame`
(note `dlc = data.len() as u8`, modelled as `% 256`). -/
def gvretTxFrameMessage (ts : Nat) (f : CanTransmitFrame) : FrameMessage :=
  { protocol := "can", timestamp_us := ts, frame_id := f.frame_id, bus := f.bus,
    dlc := f.data.length % 256, bytes := f.data, is_extended := f.is_extended,
    is_fd := f.is_fd, source_address := none, incomplete := none,
    direction := some "tx" }

/-- `GvretReader::transmit_frame` (GVRET over TCP), modelled on the path where
the channel send and the device reply succeed: validation failures return an
error `TransmitResult` with no effects; otherwise the encoded frame goes to
the transmit task, the TX echo is appended to the buffer store, and the same
echo is then emitted to the session sink. -/
def GvretReader.transmit_frame (ts : Nat) (f : CanTransmitFrame) :
    TransmitResult × List TransmitEffect :=
  match validate_gvret_frame f with
  | some msg => (TransmitResult.err ts msg, [])
  | none =>
    let txf := gvretTxFrameMessage ts f
    (TransmitResult.ok ts,
      [TransmitEffect.deviceWrite (encode_gvret_frame f),
       TransmitEffect.bufferAppend [txf], TransmitEffect.emitFrames [txf]])

/-- `GvretUsbReader::transmit_frame` (GVRET over serial), modelled on the
path where the port write succeeds; the effect order is the same. -/
def GvretUsbReader.transmit_frame (ts : Nat) (f : CanTransmitFrame) :
    TransmitResult × List TransmitEffect :=
  match validate_gvret_frame f with
  | some msg => (TransmitResult.err ts msg, [])
  | none =>
    let txf := gvretTxFrameMessage ts f
    (TransmitResult.ok ts,
      [TransmitEffect.deviceWrite (encode_gvret_frame f),
       TransmitEffect.bufferAppend [txf], TransmitEffect.emitFrames [txf]])

/-- `SlcanReader::transmit_frame`, modelled on the path where the port is open
and the write succeeds: silent mode rejects the transmit outright; otherwise
the encoded line is written, the TX echo is appended to the buffer store and
then emitted to the session sink. -/
def SlcanReader.transmit_frame (ts : Nat) (silentMode : Bool) (f : CanTransmitFrame) :
    Except String (TransmitResult × List TransmitEffect) :=
  if silentMode then
    Except.error
      "Cannot transmit in silent mode (M1). Change to normal mode (M0) in IO profile settings."
  else
    let txf := slcanFrameMessageOfTransmit ts f
    Except.ok (TransmitResult.ok ts,
      [TransmitEffect.deviceWrite (encode_slcan_frame txf),
       TransmitEffect.bufferAppend [txf], TransmitEffect.emitFrames [txf]])

/-! ## General helper lemmas -/

/-- Timestamp of the frame at buffer index `i` (shorthand in the snapshot
lemmas for `frames[i].timestamp_us`). -/
abbrev tsAt (frames : List FrameMessage) (i : Nat) : Nat :=
  (frames.getD i dfltFrame).timestamp_us

/-- Frame id of the frame at buffer index `i`. -/
abbrev idAt (frames : List FrameMessage) (i : Nat) : Nat :=
  (frames.getD i dfltFrame).frame_id

/-- The stop condition of the backward snapshot walk: the frame is more than
120 seconds older than the frame at the seek position (`anchor`). -/
abbrev outsideWindow (anchor ts : Nat) : Prop :=
  anchor > ts ∧ anchor - ts > 120000000

theorem lor_two_pow_of_lt {a i : Nat} (h : a < 2 ^ i) : a ||| 2 ^ i = a + 2 ^ i := by
  apply Nat.eq_of_testBit_eq
  intro j
  rw [Nat.testBit_lor, Nat.add_comm a (2 ^ i)]
  rcases Nat.lt_trichotomy j i with hj | rfl | hj
  · rw [Nat.testBit_two_pow_add_gt hj]
    simp [Nat.testBit_two_pow]
    omega
  · rw [Nat.testBit_two_pow_add_eq]
    simp [Nat.testBit_two_pow, Nat.testBit_lt_two_pow h]
  · have hij : 2 ^ i * 2 ≤ 2 ^ j := by
      calc 2 ^ i * 2 = 2 ^ (i + 1) := by ring
      _ ≤ 2 ^ j := Nat.pow_le_pow_right (by omega) (by omega)
    rw [Nat.testBit_lt_two_pow (by omega : 2 ^ i + a < 2 ^ j),
      Nat.testBit_lt_two_pow (by omega : a < 2 ^ j), Nat.testBit_two_pow]
    simp
    omega

/-! ## Parser machinery lemmas (GVRET records and slcan numerals) -/

theorem parseGvretAux_nil (ts fuel : Nat) : parseGvretAux ts fuel [] = ([], []) := by
  cases fuel <;> simp [parseGvretAux]

theorem parseGvretAux_cons_record (ts fuel : Nat) (rec rest : List Nat)
    (h : WFGvretRec rec) :
    parseGvretAux ts (fuel + 1) (rec ++ rest) =
      ((gvretFrameOfRec ts rec, hexEncode rec) :: (parseGvretAux ts fuel rest).1,
        (parseGvretAux ts fuel rest).2) := by
  obtain ⟨h0, h1, hlen, -⟩ := h
  have hrlen : 11 ≤ rec.length := by rw [hlen]; omega
  have hg1 : (rec ++ rest).getD 1 0 = 0 := by
    rw [List.getD_append _ _ _ _ (by omega)]; exact h1
  have hg10 : (rec ++ rest).getD 10 0 = rec.getD 10 0 :=
    List.getD_append _ _ _ _ (by omega)
  have hbuf : (rec ++ rest).dropWhile (fun b => b ≠ 241) = rec ++ rest := by
    cases rec with
    | nil => simp at hrlen
    | cons b0 tl =>
      have hb0 : b0 = 241 := by simpa using h0
      subst hb0
      simp
  have hemp : (rec ++ rest).isEmpty = false := by
    cases rec with
    | nil => simp at hrlen
    | cons b0 tl => simp
  have hlt2 : ¬ (rec ++ rest).length < 2 := by
    rw [List.length_append]; omega
  have hlt11 : ¬ (rec ++ rest).length < 11 := by
    rw [List.length_append]; omega
  have hngt : ¬ (rec.getD 10 0 % 16 > 15) := by omega
  have hlttot : ¬ (rec ++ rest).length < 11 + DLC_LEN.getD (rec.getD 10 0 % 16) 0 := by
    rw [List.length_append]; omega
  have htake : (rec ++ rest).take (11 + DLC_LEN.getD (rec.getD 10 0 % 16) 0) = rec :=
    List.take_left' hlen
  have hdropt : (rec ++ rest).drop (11 + DLC_LEN.getD (rec.getD 10 0 % 16) 0) = rest :=
    List.drop_left' hlen
  have hdrop11 : (rec ++ rest).drop 11 = rec.drop 11 ++ rest :=
    List.drop_append_of_le_length (by omega)
  have hdata : (rec.drop 11 ++ rest).take (DLC_LEN.getD (rec.getD 10 0 % 16) 0) =
      rec.drop 11 := List.take_left' (by rw [List.length_drop]; omega)
  have hg6 : (rec ++ rest).getD 6 0 = rec.getD 6 0 := List.getD_append _ _ _ _ (by omega)
  have hg7 : (rec ++ rest).getD 7 0 = rec.getD 7 0 := List.getD_append _ _ _ _ (by omega)
  have hg8 : (rec ++ rest).getD 8 0 = rec.getD 8 0 := List.getD_append _ _ _ _ (by omega)
  have hg9 : (rec ++ rest).getD 9 0 = rec.getD 9 0 := List.getD_append _ _ _ _ (by omega)
  rw [parseGvretAux]
  simp only [hbuf, hemp, Bool.false_eq_true, if_false, hlt2, hg1, hg6, hg7, hg8, hg9, hg10]
  rw [show ctrlLen 0 = none from rfl]
  simp only [ne_eq, not_true_eq_false, if_false, hlt11, hngt, hlttot, htake, hdropt,
    hdrop11, hdata]
  have hdata2 : (rec.drop 11).take (DLC_LEN.getD (rec.getD 10 0 % 16) 0) = rec.drop 11 := by
    rw [show DLC_LEN.getD (rec.getD 10 0 % 16) 0 = (rec.drop 11).length from by
      rw [List.length_drop]; omega]
    exact List.take_length _
  simp only [gvretFrameOfRec, hdata2]

theorem parseGvretAux_record_only (ts fuel : Nat) (rec : List Nat) (h : WFGvretRec rec) :
    parseGvretAux ts (fuel + 1) rec = ([(gvretFrameOfRec ts rec, hexEncode rec)], []) := by
  have h2 := parseGvretAux_cons_record ts fuel rec [] h
  rw [List.append_nil] at h2
  rw [h2, parseGvretAux_nil]

theorem parseGvretAux_skip_noise (ts fuel : Nat) (noise rest : List Nat)
    (hn : ∀ b ∈ noise, b ≠ 241) (hne : rest ≠ []) (hr : rest.getD 0 0 = 241) :
    parseGvretAux ts fuel (noise ++ rest) = parseGvretAux ts fuel rest := by
  obtain ⟨r0, rtl, rfl⟩ : ∃ r0 rtl, rest = r0 :: rtl := by
    cases rest with
    | nil => exact absurd rfl hne
    | cons a l => exact ⟨a, l, rfl⟩
  have hr0 : r0 = 241 := by simpa using hr
  subst hr0
  have hbuf : (noise ++ 241 :: rtl).dropWhile (fun b => b ≠ 241) = 241 :: rtl := by
    rw [List.dropWhile_append]
    rw [show (noise.dropWhile (fun b => b ≠ 241)) = [] from
      List.dropWhile_eq_nil_iff.mpr (fun x hx => by simpa using hn x hx)]
    simp
  cases fuel with
  | zero =>
    simp only [parseGvretAux, hbuf]
    simp
  | succ fuel =>
    simp only [parseGvretAux, hbuf]
    simp

theorem dlcLen_le (n : Nat) : DLC_LEN.getD n 0 ≤ 64 := by
  rcases Nat.lt_or_ge n 16 with h | h
  · interval_cases n <;> decide
  · rw [List.getD_eq_default _ _ (by simpa [DLC_LEN] using h)]
    omega

theorem parseGvretAux_invariants (ts : Nat) :
    ∀ (fuel : Nat) (buffer : List Nat) (fr : FrameMessage) (raw : String),
      (fr, raw) ∈ (parseGvretAux ts fuel buffer).1 →
      fr.bytes.length = fr.dlc ∧ fr.dlc ≤ 64 ∧ (fr.is_fd = false → fr.dlc ≤ 8) ∧
        (fr.is_extended = false → fr.frame_id ≤ 0x7FF) := by
  intro fuel
  induction fuel with
  | zero =>
    intro buffer fr raw h
    simp only [parseGvretAux] at h
    split at h <;> simp at h
  | succ fuel ih =>
    intro buffer fr raw h
    simp only [parseGvretAux] at h
    split at h
    · simp at h
    · split at h
      · simp at h
      · split at h
        · -- control record
          split at h
          · simp at h
          · exact ih _ _ _ h
        · split at h
          · exact ih _ _ _ h
          · split at h
            · simp at h
            · split at h
              · exact ih _ _ _ h
              · split at h
                · simp at h
                · rcases List.mem_cons.mp h with heq | hmem
                  · rw [Prod.mk.injEq] at heq
                    obtain ⟨rfl, -⟩ := heq
                    refine ⟨?_, ?_, ?_, ?_⟩
                    · dsimp only
                      rw [List.length_take, List.length_drop]
                      omega
                    · exact dlcLen_le _
                    · intro hfd
                      dsimp only at hfd ⊢
                      rw [decide_eq_false_iff_not] at hfd
                      omega
                    · intro hext
                      dsimp only at hext ⊢
                      rw [hext]
                      simp only [Bool.false_eq_true, if_false]
                      omega
                  · exact ih _ _ _ hmem

theorem hexDigitVal?_lt {b d : Nat} (h : hexDigitVal? b = some d) : d < 16 := by
  unfold hexDigitVal? at h
  split at h
  · obtain rfl := Option.some.inj h
    omega
  · split at h
    · obtain rfl := Option.some.inj h
      omega
    · split at h
      · obtain rfl := Option.some.inj h
        omega
      · simp at h

theorem hexFold_none (bs : List Nat) :
    bs.foldl (fun acc b => match acc, hexDigitVal? b with
      | some v, some d => some (v * 16 + d)
      | _, _ => none) none = none := by
  induction bs with
  | nil => rfl
  | cons b bs ih =>
    rw [List.foldl_cons]
    cases hexDigitVal? b <;> exact ih

theorem hexFold_bound : ∀ (bs : List Nat) (a v : Nat),
    bs.foldl (fun acc b => match acc, hexDigitVal? b with
      | some v, some d => some (v * 16 + d)
      | _, _ => none) (some a) = some v → v < (a + 1) * 16 ^ bs.length := by
  intro bs
  induction bs with
  | nil =>
    intro a v h
    obtain rfl := Option.some.inj h
    simp
  | cons b bs ih =>
    intro a v h
    rw [List.foldl_cons] at h
    cases hd : hexDigitVal? b with
    | none =>
      rw [hd] at h
      rw [hexFold_none] at h
      exact absurd h (by simp)
    | some d =>
      rw [hd] at h
      have h1 := ih (a * 16 + d) v h
      have h2 : d < 16 := hexDigitVal?_lt hd
      have h3 : a * 16 + d + 1 ≤ (a + 1) * 16 := by omega
      calc v < (a * 16 + d + 1) * 16 ^ bs.length := h1
      _ ≤ ((a + 1) * 16) * 16 ^ bs.length := Nat.mul_le_mul_right _ h3
      _ = (a + 1) * 16 ^ (b :: bs).length := by
        rw [List.length_cons, pow_succ]
        ring

theorem hexListVal?_bound {bs : List Nat} {v : Nat} (h : hexListVal? bs = some v) :
    v < 16 ^ bs.length := by
  have := hexFold_bound bs 0 v h
  simpa using this

theorem fromStrRadix16?_lt {bound : Nat} (hb : 0 < bound) {bs : List Nat} {v : Nat}
    (h : fromStrRadix16? bound bs = some v) : v < bound := by
  unfold fromStrRadix16? at h
  split at h
  · simp at h
  · split at h
    · split at h
      · simp at h
      · rw [Option.bind_eq_some] at h
        obtain ⟨w, -, hif⟩ := h
        split at hif
        · obtain rfl := Option.some.inj hif
          assumption
        · simp at hif
    · split at h
      · split at h
        · simp at h
        · rw [Option.bind_eq_some] at h
          obtain ⟨w, -, hif⟩ := h
          split at hif
          · obtain rfl := Option.some.inj hif
            omega
          · simp at hif
      · rw [Option.bind_eq_some] at h
        obtain ⟨w, -, hif⟩ := h
        split at hif
        · obtain rfl := Option.some.inj hif
          assumption
        · simp at hif

theorem fromStrRadix16?_pow {bound : Nat} {bs : List Nat} {v : Nat}
    (h : fromStrRadix16? bound bs = some v) : v < 16 ^ bs.length := by
  unfold fromStrRadix16? at h
  split at h
  · simp at h
  · rename_i b rest
    split at h
    · split at h
      · simp at h
      · rw [Option.bind_eq_some] at h
        obtain ⟨w, hw, hif⟩ := h
        split at hif
        · have hwv : w = v := Option.some.inj hif
          rw [← hwv]
          calc w < 16 ^ rest.length := hexListVal?_bound hw
          _ ≤ 16 ^ (b :: rest).length := Nat.pow_le_pow_right (by omega) (by simp)
        · simp at hif
    · split at h
      · split at h
        · simp at h
        · rw [Option.bind_eq_some] at h
          obtain ⟨w, -, hif⟩ := h
          split at hif
          · have hwv : (0 : Nat) = v := Option.some.inj hif
            rw [← hwv]
            exact pow_pos (by omega) _
          · simp at hif
      · rw [Option.bind_eq_some] at h
        obtain ⟨w, hw, hif⟩ := h
        split at hif
        · have hwv : w = v := Option.some.inj hif
          rw [← hwv]
          exact hexListVal?_bound hw
        · simp at hif

theorem parseHexBytes_length : ∀ (n : Nat) (line : List Nat) (start : Nat) (bs : List Nat),
    parseHexBytes line start n = some bs → bs.length = n := by
  intro n
  induction n with
  | zero =>
    intro line start bs h
    obtain rfl := Option.some.inj h
    rfl
  | succ n ih =>
    intro line start bs h
    unfold parseHexBytes at h
    split at h
    · rename_i b bs2 hb hbs2
      obtain rfl := Option.some.inj h
      simp [ih _ _ _ hbs2]
    · simp at h

theorem slcanFlags_cases {b0 : Nat} {e r : Bool} (h : slcanFlags b0 = some (e, r)) :
    (b0 = 116 ∧ e = false ∧ r = false) ∨ (b0 = 84 ∧ e = true ∧ r = false) ∨
    (b0 = 114 ∧ e = false ∧ r = true) ∨ (b0 = 82 ∧ e = true ∧ r = true) := by
  unfold slcanFlags at h
  split at h
  · obtain ⟨he, hr⟩ := Prod.mk.injEq _ _ _ _ ▸ Option.some.inj h
    exact Or.inl ⟨by assumption, he.symm, hr.symm⟩
  · split at h
    · obtain ⟨he, hr⟩ := Prod.mk.injEq _ _ _ _ ▸ Option.some.inj h
      exact Or.inr (Or.inl ⟨by assumption, he.symm, hr.symm⟩)
    · split at h
      · obtain ⟨he, hr⟩ := Prod.mk.injEq _ _ _ _ ▸ Option.some.inj h
        exact Or.inr (Or.inr (Or.inl ⟨by assumption, he.symm, hr.symm⟩))
      · split at h
        · obtain ⟨he, hr⟩ := Prod.mk.injEq _ _ _ _ ▸ Option.some.inj h
          exact Or.inr (Or.inr (Or.inr ⟨by assumption, he.symm, hr.symm⟩))
        · simp at h

theorem parseSlcanBody_invariants (ts : Nat) (line : List Nat) (isExt isRtr : Bool)
    (fr : FrameMessage) (h : parseSlcanBody ts line isExt isRtr = some fr) :
    fr.is_fd = false ∧ fr.dlc ≤ 8 ∧ fr.is_extended = isExt ∧
    (isExt = false → fr.frame_id ≤ 0xFFF) ∧ (isRtr = true → fr.bytes = []) ∧
    (isRtr = false → fr.bytes.length = fr.dlc) := by
  cases isExt with
  | false =>
    unfold parseSlcanBody at h
    simp only [Bool.false_eq_true, if_false] at h
    split at h
    · simp at h
    · split at h
      · simp at h
      · rename_i frameId heqid
        split at h
        · simp at h
        · rename_i dlc heqdlc
          split at h
          · simp at h
          · rename_i hdlc8
            have hid : frameId ≤ 0xFFF := by
              have h1 := fromStrRadix16?_pow heqid
              have h3 : ((line.drop 1).take 3).length ≤ 3 := by
                rw [List.length_take]
                omega
              have h4 : (16 : Nat) ^ ((line.drop 1).take 3).length ≤ 16 ^ 3 :=
                Nat.pow_le_pow_right (by omega) h3
              omega
            split at h
            · rename_i hdataCond
              split at h
              · simp at h
              · rw [Option.map_eq_some'] at h
                obtain ⟨data, hdata, hfr⟩ := h
                subst hfr
                refine ⟨rfl, by dsimp only; omega, rfl, fun hx => hid, ?_, ?_⟩
                · intro hrtr
                  rw [hrtr] at hdataCond
                  exact absurd hdataCond.1 (by simp)
                · intro hrtr
                  exact parseHexBytes_length _ _ _ _ hdata
            · rename_i hnotCond
              have hfr := Option.some.inj h
              subst hfr
              refine ⟨rfl, by dsimp only; omega, rfl, fun hx => hid, fun hrtr => rfl, ?_⟩
              intro hrtr
              have hdlc0 : dlc = 0 := by
                by_contra hne
                exact hnotCond ⟨hrtr, by omega⟩
              simp [hdlc0]
  | true =>
    unfold parseSlcanBody at h
    simp only [if_true] at h
    split at h
    · simp at h
    · split at h
      · simp at h
      · rename_i frameId heqid
        split at h
        · simp at h
        · rename_i dlc heqdlc
          split at h
          · simp at h
          · rename_i hdlc8
            split at h
            · rename_i hdataCond
              split at h
              · simp at h
              · rw [Option.map_eq_some'] at h
                obtain ⟨data, hdata, hfr⟩ := h
                subst hfr
                refine ⟨rfl, by dsimp only; omega, rfl, fun hx => by simp at hx, ?_, ?_⟩
                · intro hrtr
                  rw [hrtr] at hdataCond
                  exact absurd hdataCond.1 (by simp)
                · intro hrtr
                  exact parseHexBytes_length _ _ _ _ hdata
            · rename_i hnotCond
              have hfr := Option.some.inj h
              subst hfr
              refine ⟨rfl, by dsimp only; omega, rfl, fun hx => by simp at hx, fun hrtr => rfl, ?_⟩
              intro hrtr
              have hdlc0 : dlc = 0 := by
                by_contra hne
                exact hnotCond ⟨hrtr, by omega⟩
              simp [hdlc0]

theorem parse_slcan_frame_invariants (ts : Nat) (line : List Nat) (fr : FrameMessage)
    (h : parse_slcan_frame ts line = some fr) :
    fr.is_fd = false ∧ fr.dlc ≤ 8 ∧
    (fr.is_extended = false → fr.frame_id ≤ 0xFFF) ∧
    ((line.getD 0 0 = 114 ∨ line.getD 0 0 = 82) → fr.bytes = []) ∧
    ((line.getD 0 0 = 116 ∨ line.getD 0 0 = 84) → fr.bytes.length = fr.dlc) := by
  cases line with
  | nil => simp [parse_slcan_frame] at h
  | cons b0 tl =>
    unfold parse_slcan_frame at h
    simp only [] at h
    split at h
    · simp at h
    · rename_i isExt isRtr heqflags
      have hflag := slcanFlags_cases heqflags
      obtain ⟨hfd, hdlc, hext, hid, hrtrB, hdataB⟩ :=
        parseSlcanBody_invariants ts (b0 :: tl) isExt isRtr fr h
      refine ⟨hfd, hdlc, fun hx => hid (by rw [← hext]; exact hx), ?_, ?_⟩
      · intro hb
        simp only [List.getD_cons_zero] at hb
        apply hrtrB
        rcases hb with rfl | rfl <;>
          rcases hflag with ⟨h1, h2, h3⟩ | ⟨h1, h2, h3⟩ | ⟨h1, h2, h3⟩ | ⟨h1, h2, h3⟩ <;>
          first | exact h3 | omega
      · intro hb
        simp only [List.getD_cons_zero] at hb
        apply hdataB
        rcases hb with rfl | rfl <;>
          rcases hflag with ⟨h1, h2, h3⟩ | ⟨h1, h2, h3⟩ | ⟨h1, h2, h3⟩ | ⟨h1, h2, h3⟩ <;>
          first | exact h3 | omega

/-! ## C1: frame parser invariants -/

/-- C1 counterexample: the slcan parser violates two of the claimed
invariants.  Parsing the standard RTR record `r1234` yields a frame with
`dlc = 4` and empty `bytes`, so `bytes.len() == dlc` fails; parsing `tFFF0`
yields a standard (non-extended) frame with `frame_id = 0xFFF > 0x7FF`,
because the parser reads three hex digits without masking to 11 bits. -/
theorem c1_counterexample :
    (∃ fr, parse_slcan_frame 0 [114, 49, 50, 51, 52] = some fr ∧
      fr.bytes.length ≠ fr.dlc) ∧
    (∃ fr, parse_slcan_frame 0 [116, 70, 70, 70, 48] = some fr ∧
      fr.is_extended = false ∧ 0x7FF < fr.frame_id) := by
  constructor
  · exact ⟨⟨"can", 0, 0x123, 0, 4, [], false, false, none, none, none⟩, by decide, by decide⟩
  · exact ⟨⟨"can", 0, 0xFFF, 0, 0, [], false, false, none, none, none⟩, by decide, by decide⟩

/-- C1 (amended): every frame produced by `parse_gvret_frames` satisfies all
the claimed invariants (`bytes.len() == dlc`, `is_fd` bounds, standard ids at
most `0x7FF`).  Every frame produced by `parse_slcan_frame` is a classic
frame with `dlc` at most 8; a frame parsed from an RTR record (`r`/`R`) has
empty bytes (though its `dlc` may be non-zero, so `bytes.len() == dlc` holds
only for data records `t`/`T`), and a standard frame id is bounded by `0xFFF`
(three hex digits, not masked to 11 bits as the claim stated). -/
theorem c1_frame_parser_invariants :
    (∀ (ts : Nat) (buffer : List Nat) (fr : FrameMessage) (raw : String),
      (fr, raw) ∈ (parse_gvret_frames ts buffer).1 →
      fr.bytes.length = fr.dlc ∧ (fr.is_fd = true → fr.dlc ≤ 64) ∧
      (fr.is_fd = false → fr.dlc ≤ 8) ∧ (fr.is_extended = false → fr.frame_id ≤ 0x7FF)) ∧
    (∀ (ts : Nat) (line : List Nat) (fr : FrameMessage),
      parse_slcan_frame ts line = some fr →
      fr.is_fd = false ∧ fr.dlc ≤ 8 ∧
      ((line.getD 0 0 = 114 ∨ line.getD 0 0 = 82) → fr.bytes = []) ∧
      ((line.getD 0 0 = 116 ∨ line.getD 0 0 = 84) → fr.bytes.length = fr.dlc) ∧
      (fr.is_extended = false → fr.frame_id ≤ 0xFFF)) := by
  constructor
  · intro ts buffer fr raw h
    obtain ⟨h1, h2, h3, h4⟩ := parseGvretAux_invariants ts _ _ _ _ h
    exact ⟨h1, fun _ => h2, h3, h4⟩
  · intro ts line fr h
    obtain ⟨h1, h2, h3, h4, h5⟩ := parse_slcan_frame_invariants ts line fr h
    exact ⟨h1, h2, h4, h5, h3⟩

/-- C1 witness: the invariants at the standard GVRET and slcan test vectors. -/
theorem c1_frame_parser_invariants_witness :
    (∃ fr raw,
      (fr, raw) ∈ (parse_gvret_frames 7
        [0xF1, 0x00, 0, 0, 0, 0, 0x23, 0x01, 0, 0, 0x04, 0xAA, 0xBB, 0xCC, 0xDD]).1 ∧
      fr.bytes.length = fr.dlc ∧ (fr.is_extended = false → fr.frame_id ≤ 0x7FF)) ∧
    (∃ fr, parse_slcan_frame 7 [116, 49, 50, 51, 52, 65, 65, 66, 66, 67, 67, 68, 68] =
        some fr ∧ fr.dlc ≤ 8 ∧ fr.bytes.length = fr.dlc) := by
  constructor
  · refine ⟨⟨"can", 7, 0x123, 0, 4, [0xAA, 0xBB, 0xCC, 0xDD], false, false, none, none, none⟩,
      hexEncode [0xF1, 0x00, 0, 0, 0, 0, 0x23, 0x01, 0, 0, 0x04, 0xAA, 0xBB, 0xCC, 0xDD],
      by decide, ?_, ?_⟩
    · exact (c1_frame_parser_invariants.1 7
        [0xF1, 0x00, 0, 0, 0, 0, 0x23, 0x01, 0, 0, 0x04, 0xAA, 0xBB, 0xCC, 0xDD]
        ⟨"can", 7, 0x123, 0, 4, [0xAA, 0xBB, 0xCC, 0xDD], false, false, none, none, none⟩
        (hexEncode [0xF1, 0x00, 0, 0, 0, 0, 0x23, 0x01, 0, 0, 0x04, 0xAA, 0xBB, 0xCC, 0xDD])
        (by decide)).1
    · exact (c1_frame_parser_invariants.1 7
        [0xF1, 0x00, 0, 0, 0, 0, 0x23, 0x01, 0, 0, 0x04, 0xAA, 0xBB, 0xCC, 0xDD]
        ⟨"can", 7, 0x123, 0, 4, [0xAA, 0xBB, 0xCC, 0xDD], false, false, none, none, none⟩
        (hexEncode [0xF1, 0x00, 0, 0, 0, 0, 0x23, 0x01, 0, 0, 0x04, 0xAA, 0xBB, 0xCC, 0xDD])
        (by decide)).2.2.2
  · refine ⟨⟨"can", 7, 0x123, 0, 4, [0xAA, 0xBB, 0xCC, 0xDD], false, false, none, none, none⟩,
      by decide, ?_, ?_⟩
    · exact (c1_frame_parser_invariants.2 7
        [116, 49, 50, 51, 52, 65, 65, 66, 66, 67, 67, 68, 68]
        ⟨"can", 7, 0x123, 0, 4, [0xAA, 0xBB, 0xCC, 0xDD], false, false, none, none, none⟩
        (by decide)).2.1
    · exact (c1_frame_parser_invariants.2 7
        [116, 49, 50, 51, 52, 65, 65, 66, 66, 67, 67, 68, 68]
        ⟨"can", 7, 0x123, 0, 4, [0xAA, 0xBB, 0xCC, 0xDD], false, false, none, none, none⟩
        (by decide)).2.2.2.1 (Or.inl (by decide))

/-! ## C10: the two slcan encoders -/

/-- C10 counterexample: on a 9-byte payload the legacy encoder emits all nine
data bytes (with the DLC digit capped at 8) while the multi-source encoder
truncates the data to eight bytes, so the two encoders disagree. -/
theorem c10_counterexample :
    encode_slcan_transmit_frame
        { frame_id := 0, data := List.replicate 9 0, bus := 0, is_extended := false,
          is_fd := false, is_brs := false, is_rtr := false } ≠
      encode_slcan_frame (slcanFrameMessageOfTransmit 0
        { frame_id := 0, data := List.replicate 9 0, bus := 0, is_extended := false,
          is_fd := false, is_brs := false, is_rtr := false }) := by decide

/-- C10 (amended): for every `CanTransmitFrame` with at most eight data
bytes, the multi-source encoder `encode_slcan_transmit_frame` produces
exactly the same ASCII command bytes as the legacy `encode_slcan_frame`
applied to the `FrameMessage` built from the frame with `dlc = data.len()`
and `bytes = data`. -/
theorem c10_slcan_encoders_agree (ts : Nat) (f : CanTransmitFrame)
    (h : f.data.length ≤ 8) :
    encode_slcan_transmit_frame f = encode_slcan_frame (slcanFrameMessageOfTransmit ts f) := by
  have h1 : f.data.length % 256 = f.data.length := Nat.mod_eq_of_lt (by omega)
  have h2 : min f.data.length 8 = f.data.length := Nat.min_eq_left h
  simp [encode_slcan_transmit_frame, encode_slcan_frame, slcanFrameMessageOfTransmit,
    h1, h2, List.take_length]

/-- C10 witness: the amended theorem applied at a concrete frame. -/
theorem c10_slcan_encoders_agree_witness :
    encode_slcan_transmit_frame
        { frame_id := 0x123, data := [0xAA, 0xBB], bus := 0, is_extended := false,
          is_fd := false, is_brs := false, is_rtr := false } =
      encode_slcan_frame (slcanFrameMessageOfTransmit 5
        { frame_id := 0x123, data := [0xAA, 0xBB], bus := 0, is_extended := false,
          is_fd := false, is_brs := false, is_rtr := false }) :=
  c10_slcan_encoders_agree 5 _ (by decide)

/-! ## C8: `set_speed` -/

/-- C8: for every speed `s`, `set_speed` on the timeline control and on the
buffer reader rejects `s < 0` with an error and changes nothing, on `s = 0`
succeeds, disables pacing and leaves the stored speed (and the other flags)
unchanged, and on `s > 0` succeeds, enables pacing and stores `s`. -/
theorem c8_set_speed (st : TimelineControlState) (bst : BufferReaderControl) (s : Rat) :
    (s < 0 →
      TimelineControl.set_speed st s = Except.error "Speed cannot be negative" ∧
      BufferReader.set_speed bst s = Except.error "Speed cannot be negative") ∧
    (s = 0 → ∃ st2 bst2,
      TimelineControl.set_speed st s = Except.ok st2 ∧
      BufferReader.set_speed bst s = Except.ok bst2 ∧
      st2.pacing_enabled = false ∧ st2.speed = st.speed ∧
      st2.cancel_flag = st.cancel_flag ∧ st2.pause_flag = st.pause_flag ∧
      bst2.pacing_enabled = false ∧ bst2.speed = bst.speed ∧
      bst2.cancel_flag = bst.cancel_flag ∧ bst2.pause_flag = bst.pause_flag) ∧
    (0 < s → ∃ st2 bst2,
      TimelineControl.set_speed st s = Except.ok st2 ∧
      BufferReader.set_speed bst s = Except.ok bst2 ∧
      st2.pacing_enabled = true ∧ st2.speed = s ∧
      st2.cancel_flag = st.cancel_flag ∧ st2.pause_flag = st.pause_flag ∧
      bst2.pacing_enabled = true ∧ bst2.speed = s ∧
      bst2.cancel_flag = bst.cancel_flag ∧ bst2.pause_flag = bst.pause_flag) := by
  refine ⟨fun hlt => ?_, fun heq => ?_, fun hgt => ?_⟩
  · simp [TimelineControl.set_speed, BufferReader.set_speed, hlt]
  · exact ⟨{ st with pacing_enabled := false }, { bst with pacing_enabled := false },
      by simp [TimelineControl.set_speed, heq], by simp [BufferReader.set_speed, heq],
      rfl, rfl, rfl, rfl, rfl, rfl, rfl, rfl⟩
  · exact ⟨{ st with pacing_enabled := true, speed := s },
      { bst with pacing_enabled := true, speed := s },
      by simp [TimelineControl.set_speed, hgt.ne.symm, not_lt.mpr hgt.le],
      by simp [BufferReader.set_speed, hgt.ne.symm, not_lt.mpr hgt.le],
      rfl, rfl, rfl, rfl, rfl, rfl, rfl, rfl⟩

/-- C8 witness: the three cases of the theorem at concrete speeds. -/
theorem c8_set_speed_witness :
    (TimelineControl.set_speed ⟨false, false, true, 1⟩ (-1) =
        Except.error "Speed cannot be negative" ∧
      BufferReader.set_speed ⟨false, false, true, 1, 0, false⟩ (-1) =
        Except.error "Speed cannot be negative") ∧
    (∃ st2 bst2,
      TimelineControl.set_speed ⟨false, false, true, 7⟩ 0 = Except.ok st2 ∧
      BufferReader.set_speed ⟨false, false, true, 7, 0, false⟩ 0 = Except.ok bst2 ∧
      st2.pacing_enabled = false ∧ st2.speed = (7 : Rat) ∧
      bst2.pacing_enabled = false ∧ bst2.speed = (7 : Rat)) ∧
    (∃ st2 bst2,
      TimelineControl.set_speed ⟨false, false, false, 1⟩ 2 = Except.ok st2 ∧
      BufferReader.set_speed ⟨false, false, false, 1, 0, false⟩ 2 = Except.ok bst2 ∧
      st2.pacing_enabled = true ∧ st2.speed = (2 : Rat) ∧
      bst2.pacing_enabled = true ∧ bst2.speed = (2 : Rat)) := by
  refine ⟨(c8_set_speed ⟨false, false, true, 1⟩ ⟨false, false, true, 1, 0, false⟩ (-1)).1
      (by norm_num), ?_, ?_⟩
  · obtain ⟨st2, bst2, h1, h2, h3, h4, _, _, h5, h6, _, _⟩ :=
      (c8_set_speed ⟨false, false, true, 7⟩ ⟨false, false, true, 7, 0, false⟩ 0).2.1 rfl
    exact ⟨st2, bst2, h1, h2, h3, h4, h5, h6⟩
  · obtain ⟨st2, bst2, h1, h2, h3, h4, _, _, h5, h6, _, _⟩ :=
      (c8_set_speed ⟨false, false, false, 1⟩ ⟨false, false, false, 1, 0, false⟩ 2).2.2
        (by norm_num)
    exact ⟨st2, bst2, h1, h2, h3, h4, h5, h6⟩

/-! ## C9: `can_use_profile` -/

/-- C9: `can_use_profile` succeeds unconditionally for kinds outside
`SINGLE_HANDLE_KINDS = [slcan, serial]`; for single-handle kinds it fails
(with the device-busy message) exactly when the profile id is registered in
the usage map, and succeeds otherwise. -/
theorem c9_can_use_profile (usage : List (String × String))
    (profile_id profile_kind : String) :
    (profile_kind ∉ SINGLE_HANDLE_KINDS →
      can_use_profile usage profile_id profile_kind = Except.ok ()) ∧
    (profile_kind ∈ SINGLE_HANDLE_KINDS →
      (∀ sid, usage.lookup profile_id = some sid →
        can_use_profile usage profile_id profile_kind =
          Except.error
            ("Profile is in use by session " ++ sid ++ ". Stop that session first.")) ∧
      (usage.lookup profile_id = none →
        can_use_profile usage profile_id profile_kind = Except.ok ())) := by
  refine ⟨fun h => ?_, fun h => ⟨fun sid hs => ?_, fun hn => ?_⟩⟩
  · simp [can_use_profile, h]
  · simp [can_use_profile, h, hs]
  · simp [can_use_profile, h, hn]

/-- C9 witness: a non-single-handle kind always succeeds; a registered slcan
profile is refused while an unregistered one is allowed. -/
theorem c9_can_use_profile_witness :
    can_use_profile [("p1", "s1")] "p1" "gvret_tcp" = Except.ok () ∧
    can_use_profile [("p1", "s1")] "p1" "slcan" =
      Except.error "Profile is in use by session s1. Stop that session first." ∧
    can_use_profile [("p1", "s1")] "p2" "slcan" = Except.ok () :=
  ⟨(c9_can_use_profile [("p1", "s1")] "p1" "gvret_tcp").1 (by decide),
   ((c9_can_use_profile [("p1", "s1")] "p1" "slcan").2 (by decide)).1 "s1" (by decide),
   ((c9_can_use_profile [("p1", "s1")] "p2" "slcan").2 (by decide)).2 (by decide)⟩

/-! ## C7: transmit echoes are buffered before they are emitted -/

/-- C7: whenever a device transmit succeeds (GVRET TCP, GVRET serial, slcan),
a `direction="tx"` echo carrying the transmitted frame id, bus, dlc and bytes
is appended to the buffer store strictly before the same echo is emitted to
the session sink. -/
theorem c7_tx_echo_buffered_before_emit (ts : Nat) (f : CanTransmitFrame)
    (hlen : f.data.length < 256) (hval : validate_gvret_frame f = none) :
    ∃ e : FrameMessage,
      e.direction = some "tx" ∧ e.frame_id = f.frame_id ∧ e.bus = f.bus ∧
      e.dlc = f.data.length ∧ e.bytes = f.data ∧
      (∃ i j : Nat, i < j ∧
        (GvretReader.transmit_frame ts f).2[i]? = some (TransmitEffect.bufferAppend [e]) ∧
        (GvretReader.transmit_frame ts f).2[j]? = some (TransmitEffect.emitFrames [e])) ∧
      (∃ i j : Nat, i < j ∧
        (GvretUsbReader.transmit_frame ts f).2[i]? =
          some (TransmitEffect.bufferAppend [e]) ∧
        (GvretUsbReader.transmit_frame ts f).2[j]? = some (TransmitEffect.emitFrames [e])) ∧
      (∀ res tr, SlcanReader.transmit_frame ts false f = Except.ok (res, tr) →
        ∃ i j : Nat, i < j ∧
          tr[i]? = some (TransmitEffect.bufferAppend [e]) ∧
          tr[j]? = some (TransmitEffect.emitFrames [e])) := by
  refine ⟨gvretTxFrameMessage ts f, rfl, rfl, rfl, Nat.mod_eq_of_lt hlen, rfl, ?_, ?_, ?_⟩
  · exact ⟨1, 2, by omega, by simp [GvretReader.transmit_frame, hval],
      by simp [GvretReader.transmit_frame, hval]⟩
  · exact ⟨1, 2, by omega, by simp [GvretUsbReader.transmit_frame, hval],
      by simp [GvretUsbReader.transmit_frame, hval]⟩
  · intro res tr htr
    have h0 : SlcanReader.transmit_frame ts false f =
        Except.ok (TransmitResult.ok ts,
          [TransmitEffect.deviceWrite (encode_slcan_frame (slcanFrameMessageOfTransmit ts f)),
           TransmitEffect.bufferAppend [slcanFrameMessageOfTransmit ts f],
           TransmitEffect.emitFrames [slcanFrameMessageOfTransmit ts f]]) := by
      simp [SlcanReader.transmit_frame]
    rw [h0] at htr
    injection htr with hpair
    have htl : tr = [TransmitEffect.deviceWrite
        (encode_slcan_frame (slcanFrameMessageOfTransmit ts f)),
        TransmitEffect.bufferAppend [slcanFrameMessageOfTransmit ts f],
        TransmitEffect.emitFrames [slcanFrameMessageOfTransmit ts f]] :=
      (congrArg Prod.snd hpair).symm
    subst htl
    have he : slcanFrameMessageOfTransmit ts f = gvretTxFrameMessage ts f := rfl
    exact ⟨1, 2, by omega, by simp [he], by simp [he]⟩

/-- C7 witness: the theorem at a concrete valid frame. -/
theorem c7_tx_echo_buffered_before_emit_witness :
    ∃ e : FrameMessage,
      e.direction = some "tx" ∧ e.frame_id = 0x123 ∧ e.bus = 0 ∧
      e.dlc = 2 ∧ e.bytes = [0xAA, 0xBB] ∧
      (∃ i j : Nat, i < j ∧
        (GvretReader.transmit_frame 9
            { frame_id := 0x123, data := [0xAA, 0xBB], bus := 0, is_extended := false,
              is_fd := false, is_brs := false, is_rtr := false }).2[i]? =
          some (TransmitEffect.bufferAppend [e]) ∧
        (GvretReader.transmit_frame 9
            { frame_id := 0x123, data := [0xAA, 0xBB], bus := 0, is_extended := false,
              is_fd := false, is_brs := false, is_rtr := false }).2[j]? =
          some (TransmitEffect.emitFrames [e])) := by
  obtain ⟨e, h1, h2, h3, h4, h5, h6, -, -⟩ :=
    c7_tx_echo_buffered_before_emit 9
      { frame_id := 0x123, data := [0xAA, 0xBB], bus := 0, is_extended := false,
        is_fd := false, is_brs := false, is_rtr := false }
      (by decide) (by decide)
  exact ⟨e, h1, h2, h3, h4, h5, h6⟩

/-! ## C6: multi-source transmit routing -/

theorem lookup_cons_ne (b k : Nat) (v : TransmitRoute) (m : List (Nat × TransmitRoute))
    (h : b ≠ k) : List.lookup b ((k, v) :: m) = m.lookup b := by
  simp [List.lookup_cons, show (b == k) = false from beq_eq_false_iff_ne.mpr h]

theorem lookup_cons_self (b : Nat) (v : TransmitRoute) (m : List (Nat × TransmitRoute)) :
    List.lookup b ((b, v) :: m) = some v := by
  simp [List.lookup_cons]

theorem lookup_single (b k : Nat) (v : TransmitRoute) :
    List.lookup b [(k, v)] = if b = k then some v else none := by
  by_cases hb : b = k
  · subst hb; simp [lookup_cons_self]
  · simp [lookup_cons_ne b k v [] hb, hb]

theorem lookup_filter_ne (k b : Nat) : ∀ m : List (Nat × TransmitRoute),
    (m.filter (fun p => p.1 ≠ k)).lookup b = if b = k then none else m.lookup b := by
  intro m
  induction m with
  | nil => simp
  | cons p m ih =>
    obtain ⟨k', v'⟩ := p
    rw [List.filter_cons]
    by_cases hk : k' = k
    · rw [if_neg (by simp [hk]), ih]
      by_cases hb : b = k
      · simp [hb]
      · rw [if_neg hb, if_neg hb, lookup_cons_ne b k' v' m (by omega)]
    · rw [if_pos (by simp [hk])]
      by_cases hb : b = k'
      · subst hb
        rw [lookup_cons_self, lookup_cons_self, if_neg (by omega)]
      · rw [lookup_cons_ne b k' v' _ hb, ih]
        by_cases hbk : b = k
        · simp [hbk]
        · rw [if_neg hbk, if_neg hbk, lookup_cons_ne b k' v' m hb]

theorem lookup_insertRoute (k : Nat) (v : TransmitRoute) (b : Nat)
    (m : List (Nat × TransmitRoute)) :
    (insertRoute m k v).lookup b = if b = k then some v else m.lookup b := by
  unfold insertRoute
  rw [List.lookup_append, lookup_filter_ne, lookup_single]
  by_cases hb : b = k
  · simp [hb]
  · simp [hb]

theorem lookup_addMapping_fold_none (idx : Nat) (src : SourceConfig) (b : Nat) :
    ∀ (ms : List BusMapping) (m : List (Nat × TransmitRoute)),
      ((ms.foldl (addMapping idx src) m).lookup b = none ↔
        m.lookup b = none ∧ ∀ mp ∈ ms, mp.enabled = true → mp.output_bus ≠ b) := by
  intro ms
  induction ms with
  | nil => intro m; simp
  | cons mp ms ih =>
    intro m
    rw [List.foldl_cons, ih]
    constructor
    · rintro ⟨h1, h2⟩
      by_cases he : mp.enabled = true
      · rw [show addMapping idx src m mp = insertRoute m mp.output_bus
            { source_idx := idx, profile_id := src.profile_id,
              profile_kind := src.profile_kind, device_bus := mp.device_bus } from by
            simp [addMapping, he], lookup_insertRoute] at h1
        by_cases hb : b = mp.output_bus
        · rw [if_pos hb] at h1
          exact absurd h1 (by simp)
        · rw [if_neg hb] at h1
          refine ⟨h1, ?_⟩
          intro mp2 hmp2 hen2
          rcases List.mem_cons.mp hmp2 with rfl | hmp2
          · omega
          · exact h2 mp2 hmp2 hen2
      · rw [show addMapping idx src m mp = m from by simp [addMapping, he]] at h1
        refine ⟨h1, ?_⟩
        intro mp2 hmp2 hen2
        rcases List.mem_cons.mp hmp2 with rfl | hmp2
        · exact absurd hen2 he
        · exact h2 mp2 hmp2 hen2
    · rintro ⟨h1, h2⟩
      refine ⟨?_, fun mp2 hmp2 hen2 => h2 mp2 (List.mem_cons_of_mem _ hmp2) hen2⟩
      by_cases he : mp.enabled = true
      · rw [show addMapping idx src m mp = insertRoute m mp.output_bus
            { source_idx := idx, profile_id := src.profile_id,
              profile_kind := src.profile_kind, device_bus := mp.device_bus } from by
            simp [addMapping, he], lookup_insertRoute]
        rw [if_neg (fun hb => (h2 mp (List.mem_cons_self _ _) he) hb.symm)]
        exact h1
      · rw [show addMapping idx src m mp = m from by simp [addMapping, he]]
        exact h1

theorem lookup_addMapping_fold_some (idx : Nat) (src : SourceConfig) (b : Nat)
    (r : TransmitRoute) :
    ∀ (ms : List BusMapping) (m : List (Nat × TransmitRoute)),
      (ms.foldl (addMapping idx src) m).lookup b = some r →
      m.lookup b = some r ∨
        ∃ mp ∈ ms, mp.enabled = true ∧ mp.output_bus = b ∧
          r = { source_idx := idx, profile_id := src.profile_id,
                profile_kind := src.profile_kind, device_bus := mp.device_bus } := by
  intro ms
  induction ms with
  | nil => intro m h; exact Or.inl h
  | cons mp ms ih =>
    intro m h
    rw [List.foldl_cons] at h
    rcases ih _ h with h1 | ⟨mp2, hmp2, hen, hob, hr⟩
    · by_cases he : mp.enabled = true
      · rw [show addMapping idx src m mp = insertRoute m mp.output_bus
            { source_idx := idx, profile_id := src.profile_id,
              profile_kind := src.profile_kind, device_bus := mp.device_bus } from by
            simp [addMapping, he], lookup_insertRoute] at h1
        by_cases hb : b = mp.output_bus
        · rw [if_pos hb] at h1
          exact Or.inr ⟨mp, List.mem_cons_self _ _, he, hb.symm, (Option.some.inj h1).symm⟩
        · rw [if_neg hb] at h1
          exact Or.inl h1
      · rw [show addMapping idx src m mp = m from by simp [addMapping, he]] at h1
        exact Or.inl h1
    · exact Or.inr ⟨mp2, List.mem_cons_of_mem _ hmp2, hen, hob, hr⟩

theorem lookup_addSource_fold_none (b : Nat) :
    ∀ (ps : List (Nat × SourceConfig)) (m : List (Nat × TransmitRoute)),
      ((ps.foldl addSource m).lookup b = none ↔
        m.lookup b = none ∧
          ∀ p ∈ ps, ∀ mp ∈ p.2.bus_mappings, mp.enabled = true → mp.output_bus ≠ b) := by
  intro ps
  induction ps with
  | nil => intro m; simp
  | cons p ps ih =>
    intro m
    rw [List.foldl_cons, ih,
      show addSource m p = p.2.bus_mappings.foldl (addMapping p.1 p.2) m from rfl,
      lookup_addMapping_fold_none]
    constructor
    · rintro ⟨⟨h1, h2⟩, h3⟩
      refine ⟨h1, ?_⟩
      intro p2 hp2 mp hmp hen
      rcases List.mem_cons.mp hp2 with rfl | hp2
      · exact h2 mp hmp hen
      · exact h3 p2 hp2 mp hmp hen
    · rintro ⟨h1, h2⟩
      exact ⟨⟨h1, fun mp hmp hen => h2 p (List.mem_cons_self _ _) mp hmp hen⟩,
        fun p2 hp2 mp hmp hen => h2 p2 (List.mem_cons_of_mem _ hp2) mp hmp hen⟩

theorem lookup_addSource_fold_some (b : Nat) (r : TransmitRoute) :
    ∀ (ps : List (Nat × SourceConfig)) (m : List (Nat × TransmitRoute)),
      (ps.foldl addSource m).lookup b = some r →
      m.lookup b = some r ∨
        ∃ p ∈ ps, ∃ mp ∈ p.2.bus_mappings, mp.enabled = true ∧ mp.output_bus = b ∧
          r = { source_idx := p.1, profile_id := p.2.profile_id,
                profile_kind := p.2.profile_kind, device_bus := mp.device_bus } := by
  intro ps
  induction ps with
  | nil => intro m h; exact Or.inl h
  | cons p ps ih =>
    intro m h
    rw [List.foldl_cons] at h
    rcases ih _ h with h1 | ⟨p2, hp2, hrest⟩
    · rcases lookup_addMapping_fold_some p.1 p.2 b r _ _ h1 with h2 | ⟨mp, hmp, hen, hob, hr⟩
      · exact Or.inl h2
      · exact Or.inr ⟨p, List.mem_cons_self _ _, mp, hmp, hen, hob, hr⟩
    · exact Or.inr ⟨p2, List.mem_cons_of_mem _ hp2, hrest⟩

/-- C6: `MultiSourceReader::transmit_frame` looks the frame's bus up in the
route table built at construction from the enabled bus mappings; a missing
route fails (with the no-source-configured message, classified `Configuration`
by the spec) and nothing is sent; otherwise the frame's bus is rewritten to
the route's `device_bus`, the frame is encoded per the route's profile kind
and sent on that source's transmit channel - failing (with the
no-transmit-channel message, the spec's `Other("source not connected")`) when
the source's transmit channel is absent from the shared map. -/
theorem c6_transmit_routing (sources : List SourceConfig) (channels : List Nat)
    (ts : Nat) (f : CanTransmitFrame) :
    ((buildTransmitRoutes sources).lookup f.bus = none ↔
      ∀ (idx : Nat) (src : SourceConfig), sources[idx]? = some src →
        ∀ mp ∈ src.bus_mappings, mp.enabled = true → mp.output_bus ≠ f.bus) ∧
    ((buildTransmitRoutes sources).lookup f.bus = none →
      ∃ msg, MultiSourceReader.transmit_frame (buildTransmitRoutes sources) channels ts f =
        Except.error msg) ∧
    (∀ r, (buildTransmitRoutes sources).lookup f.bus = some r →
      (∃ (idx : Nat) (src : SourceConfig), sources[idx]? = some src ∧
        ∃ mp ∈ src.bus_mappings, mp.enabled = true ∧ mp.output_bus = f.bus ∧
          r = { source_idx := idx, profile_id := src.profile_id,
                profile_kind := src.profile_kind, device_bus := mp.device_bus }) ∧
      (r.source_idx ∉ channels →
        ∃ msg, MultiSourceReader.transmit_frame (buildTransmitRoutes sources) channels ts f =
          Except.error msg) ∧
      (r.source_idx ∈ channels →
        ((r.profile_kind = "gvret_tcp" ∨ r.profile_kind = "gvret_usb") →
          validate_gvret_frame { f with bus := r.device_bus } = none →
          MultiSourceReader.transmit_frame (buildTransmitRoutes sources) channels ts f =
            Except.ok (TransmitResult.ok ts,
              [(r.source_idx, encode_gvret_frame { f with bus := r.device_bus })])) ∧
        (r.profile_kind = "gs_usb" →
          MultiSourceReader.transmit_frame (buildTransmitRoutes sources) channels ts f =
            Except.ok (TransmitResult.ok ts,
              [(r.source_idx, encode_gs_usb_frame { f with bus := r.device_bus } 0)])) ∧
        (r.profile_kind = "slcan" →
          MultiSourceReader.transmit_frame (buildTransmitRoutes sources) channels ts f =
            Except.ok (TransmitResult.ok ts,
              [(r.source_idx, encode_slcan_transmit_frame { f with bus := r.device_bus })])) ∧
        (r.profile_kind = "socketcan" →
          MultiSourceReader.transmit_frame (buildTransmitRoutes sources) channels ts f =
            Except.ok (TransmitResult.ok ts,
              [(r.source_idx, encode_socketcan_frame { f with bus := r.device_bus })])))) := by
  refine ⟨?_, ?_, ?_⟩
  · rw [show buildTransmitRoutes sources = (sources.enum).foldl addSource [] from rfl,
      lookup_addSource_fold_none]
    simp only [List.lookup_nil, true_and]
    constructor
    · intro h idx src hsrc mp hmp hen
      exact h (idx, src) (List.mem_enum_iff_getElem?.mpr hsrc) mp hmp hen
    · intro h p hp mp hmp hen
      exact h p.1 p.2 (List.mem_enum_iff_getElem?.mp hp) mp hmp hen
  · intro hnone
    refine ⟨"No source configured for bus " ++ toString f.bus ++ " (available: " ++
      toString (List.map Prod.fst (buildTransmitRoutes sources)) ++ ")", ?_⟩
    unfold MultiSourceReader.transmit_frame
    rw [hnone]
  · intro r hr
    refine ⟨?_, ?_, ?_⟩
    · have h0 := lookup_addSource_fold_some f.bus r (sources.enum) [] hr
      rcases h0 with h1 | ⟨p, hp, mp, hmp, hen, hob, hrr⟩
      · simp at h1
      · exact ⟨p.1, p.2, List.mem_enum_iff_getElem?.mp hp, mp, hmp, hen, hob, hrr⟩
    · intro hch
      refine ⟨"No transmit channel for source " ++ toString r.source_idx ++ " (profile " ++
        r.profile_id ++ ") - source may not support transmit or not yet connected", ?_⟩
      unfold MultiSourceReader.transmit_frame
      rw [hr]
      simp only []
      rw [if_neg hch]
    · intro hch
      refine ⟨?_, ?_, ?_, ?_⟩
      · rintro (hkind | hkind) hval <;>
          simp [MultiSourceReader.transmit_frame, hr, hch, hkind, hval]
      · intro hkind
        simp [MultiSourceReader.transmit_frame, hr, hch, hkind]
      · intro hkind
        simp [MultiSourceReader.transmit_frame, hr, hch, hkind]
      · intro hkind
        simp [MultiSourceReader.transmit_frame, hr, hch, hkind]

/-- C6 witness: one slcan source mapping device bus 0 to output bus 5.  A
transmit on unmapped bus 7 fails, a transmit on bus 5 is rewritten to device
bus 0 and sent slcan-encoded to source 0, and the same transmit fails when
source 0 has no connected channel. -/
theorem c6_transmit_routing_witness :
    (∃ msg, MultiSourceReader.transmit_frame
        (buildTransmitRoutes [⟨"p0", "slcan", "d", [⟨0, 5, true⟩]⟩]) [0] 3
        ⟨1, [0xAB], 7, false, false, false, false⟩ = Except.error msg) ∧
    MultiSourceReader.transmit_frame
        (buildTransmitRoutes [⟨"p0", "slcan", "d", [⟨0, 5, true⟩]⟩]) [0] 3
        ⟨1, [0xAB], 5, false, false, false, false⟩ =
      Except.ok (TransmitResult.ok 3,
        [(0, encode_slcan_transmit_frame ⟨1, [0xAB], 0, false, false, false, false⟩)]) ∧
    (∃ msg, MultiSourceReader.transmit_frame
        (buildTransmitRoutes [⟨"p0", "slcan", "d", [⟨0, 5, true⟩]⟩]) [] 3
        ⟨1, [0xAB], 5, false, false, false, false⟩ = Except.error msg) := by
  refine ⟨?_, ?_, ?_⟩
  · exact (c6_transmit_routing [⟨"p0", "slcan", "d", [⟨0, 5, true⟩]⟩] [0] 3
      ⟨1, [0xAB], 7, false, false, false, false⟩).2.1 (by decide)
  · exact (((c6_transmit_routing [⟨"p0", "slcan", "d", [⟨0, 5, true⟩]⟩] [0] 3
      ⟨1, [0xAB], 5, false, false, false, false⟩).2.2 ⟨0, "p0", "slcan", 0⟩
      (by decide)).2.2 (by decide)).2.2.1 rfl
  · exact ((c6_transmit_routing [⟨"p0", "slcan", "d", [⟨0, 5, true⟩]⟩] [] 3
      ⟨1, [0xAB], 5, false, false, false, false⟩).2.2 ⟨0, "p0", "slcan", 0⟩
      (by decide)).2.1 (by decide)

end CANdor

namespace CANdor

/-- Decoding helper: `gvretFrameOfRec` on an explicit 11-byte-header record written in
cons form evaluates definitionally to its field-by-field form. -/
theorem gvretFrameOfRec_fields (ts : Nat) (t0 t1 t2 t3 i0 i1 i2 i3 bd : Nat) (data : List Nat) :
    gvretFrameOfRec ts (241 :: 0 :: t0 :: t1 :: t2 :: t3 :: i0 :: i1 :: i2 :: i3 :: bd :: data) =
      { protocol := "can", timestamp_us := ts,
        frame_id :=
          if decide ((i0 + i1 * 256 + i2 * 65536 + i3 * 16777216) / 2147483648 % 2 = 1) = true
          then (i0 + i1 * 256 + i2 * 65536 + i3 * 16777216) % 536870912
          else (i0 + i1 * 256 + i2 * 65536 + i3 * 16777216) % 2048,
        bus := bd / 16 % 16, dlc := DLC_LEN.getD (bd % 16) 0,
        bytes := data.take (DLC_LEN.getD (bd % 16) 0),
        is_extended := decide ((i0 + i1 * 256 + i2 * 65536 + i3 * 16777216) / 2147483648 % 2 = 1),
        is_fd := decide (8 < DLC_LEN.getD (bd % 16) 0),
        source_address := none, incomplete := none, direction := none } := rfl

/-- C2 (amended): the GVRET round-trip holds for the receive-direction record format.
For every valid `CanTransmitFrame` (timestamp bytes, in-range data bytes, `bus ≤ 4`,
id within the standard/extended range) the record `[0xF1][0x00][ts:4][id:4 LE]
[bus<<4|dlc][data]` parses back to exactly one frame whose `frame_id`, `bus`, `dlc`,
`bytes` and `is_extended` equal those of the input. -/
theorem c2_gvret_roundtrip_rx (ts t0 t1 t2 t3 : Nat) (f : CanTransmitFrame) (nib : Nat)
    (hnib : nib < 16) (hlen : DLC_LEN.getD nib 0 = f.data.length)
    (ht0 : t0 < 256) (ht1 : t1 < 256) (ht2 : t2 < 256) (ht3 : t3 < 256)
    (hdata : ∀ b ∈ f.data, b < 256) (hbus : f.bus ≤ 4)
    (hidExt : f.is_extended = true → f.frame_id ≤ 0x1FFFFFFF)
    (hidStd : f.is_extended = false → f.frame_id ≤ 0x7FF) :
    ∃ fr raw,
      parse_gvret_frames ts (gvret_rx_record [t0, t1, t2, t3] f nib) = ([(fr, raw)], []) ∧
      fr.frame_id = f.frame_id ∧ fr.bus = f.bus ∧ fr.dlc = f.data.length ∧
      fr.bytes = f.data ∧ fr.is_extended = f.is_extended := by
  set fid := (if f.is_extended then f.frame_id ||| CAN_EFF_FLAG else f.frame_id % 2048)
    with hfiddef
  have hrec : gvret_rx_record [t0, t1, t2, t3] f nib =
      241 :: 0 :: t0 :: t1 :: t2 :: t3 :: fid % 256 :: fid / 256 % 256 :: fid / 65536 % 256 ::
        fid / 16777216 % 256 :: (f.bus * 16 + nib) :: f.data := by
    simp [gvret_rx_record, u32ToLeBytes, ← hfiddef]
  have hfidP : fid < 4294967296 ∧
      (f.is_extended = true → fid = f.frame_id + 2147483648 ∧ f.frame_id ≤ 0x1FFFFFFF) ∧
      (f.is_extended = false → fid = f.frame_id ∧ f.frame_id ≤ 0x7FF) := by
    cases hExt : f.is_extended with
    | true =>
      have hle := hidExt hExt
      have heq : fid = f.frame_id + 2147483648 := by
        rw [hfiddef, hExt, if_pos rfl,
          show CAN_EFF_FLAG = 2 ^ 31 from by norm_num [CAN_EFF_FLAG],
          lor_two_pow_of_lt (show f.frame_id < 2 ^ 31 by omega)]
        norm_num
      refine ⟨by omega, fun _ => ⟨heq, hle⟩, fun hco => absurd hco (by decide)⟩
    | false =>
      have hle := hidStd hExt
      have heq : fid = f.frame_id := by
        rw [hfiddef, hExt]
        simp only [Bool.false_eq_true, if_false]
        omega
      refine ⟨by omega, fun hco => absurd hco (by decide), fun _ => ⟨heq, hle⟩⟩
  have hcanId : fid % 256 + fid / 256 % 256 * 256 + fid / 65536 % 256 * 65536 +
      fid / 16777216 % 256 * 16777216 = fid := by
    have := hfidP.1
    omega
  have hmod16 : (f.bus * 16 + nib) % 16 = nib := by omega
  have hWF : WFGvretRec (gvret_rx_record [t0, t1, t2, t3] f nib) := by
    rw [hrec]
    refine ⟨rfl, rfl, ?_, ?_⟩
    · have hg10 : (241 :: 0 :: t0 :: t1 :: t2 :: t3 :: fid % 256 :: fid / 256 % 256 ::
          fid / 65536 % 256 :: fid / 16777216 % 256 :: (f.bus * 16 + nib) :: f.data).getD 10 0 =
          f.bus * 16 + nib := rfl
      rw [hg10, hmod16, hlen]
      simp only [List.length_cons]
      omega
    · intro b hb
      simp only [List.mem_cons] at hb
      rcases hb with rfl | rfl | rfl | rfl | rfl | rfl | rfl | rfl | rfl | rfl | rfl | hb
      · omega
      · omega
      · omega
      · omega
      · omega
      · omega
      · omega
      · omega
      · omega
      · omega
      · omega
      · exact hdata _ hb
  obtain ⟨k, hk⟩ : ∃ k, (gvret_rx_record [t0, t1, t2, t3] f nib).length = k + 1 :=
    ⟨(gvret_rx_record [t0, t1, t2, t3] f nib).length - 1, by rw [hrec]; simp⟩
  refine ⟨gvretFrameOfRec ts (gvret_rx_record [t0, t1, t2, t3] f nib),
    hexEncode (gvret_rx_record [t0, t1, t2, t3] f nib), ?_, ?_, ?_, ?_, ?_, ?_⟩
  · unfold parse_gvret_frames
    rw [hk, parseGvretAux_record_only ts k _ hWF]
  · rw [hrec, gvretFrameOfRec_fields, hcanId]
    cases hExt : f.is_extended with
    | true =>
      obtain ⟨heq, hle⟩ := hfidP.2.1 hExt
      have hcond : fid / 2147483648 % 2 = 1 := by omega
      simp only [hcond, decide_True, if_true]
      omega
    | false =>
      obtain ⟨heq, hle⟩ := hfidP.2.2 hExt
      have hcond : ¬ (fid / 2147483648 % 2 = 1) := by omega
      simp only [hcond, decide_False, Bool.false_eq_true, if_false]
      omega
  · rw [hrec, gvretFrameOfRec_fields]
    show (f.bus * 16 + nib) / 16 % 16 = f.bus
    omega
  · rw [hrec, gvretFrameOfRec_fields]
    show DLC_LEN.getD ((f.bus * 16 + nib) % 16) 0 = f.data.length
    rw [hmod16, hlen]
  · rw [hrec, gvretFrameOfRec_fields]
    show f.data.take (DLC_LEN.getD ((f.bus * 16 + nib) % 16) 0) = f.data
    rw [hmod16, hlen]
    exact List.take_length f.data
  · rw [hrec, gvretFrameOfRec_fields]
    show decide (_ / 2147483648 % 2 = 1) = f.is_extended
    rw [hcanId]
    cases hExt : f.is_extended with
    | true =>
      obtain ⟨heq, hle⟩ := hfidP.2.1 hExt
      simp only [decide_eq_true_eq]
      omega
    | false =>
      obtain ⟨heq, hle⟩ := hfidP.2.2 hExt
      simp only [decide_eq_false_iff_not]
      omega

end CANdor

namespace CANdor

/-- C2 counterexample: the claim as stated is false, because `encode_gvret_frame`
produces the transmit-direction wire format `[0xF1][0x00][id:4][bus][len][data]`,
which the receive parser (expecting a 4-byte timestamp before the id) does not
recognise: on a valid standard 4-byte frame, `parse_gvret_frames (encode_gvret_frame f)`
yields no frames at all rather than recovering `f`. -/
theorem c2_counterexample :
    validate_gvret_frame ⟨291, [17, 34, 51, 68], 0, false, false, false, false⟩ = none ∧
    (parse_gvret_frames 0
      (encode_gvret_frame ⟨291, [17, 34, 51, 68], 0, false, false, false, false⟩)).1 = [] :=
  ⟨by decide, by decide⟩

/-- Witness for C2 (amended) at a concrete standard frame. -/
theorem c2_gvret_roundtrip_rx_witness :
    ∃ fr raw,
      parse_gvret_frames 7 (gvret_rx_record [1, 2, 3, 4]
        ⟨291, [17, 34, 51, 68], 2, false, false, false, false⟩ 4) = ([(fr, raw)], []) ∧
      fr.frame_id = 291 ∧ fr.bus = 2 ∧ fr.dlc = 4 ∧ fr.bytes = [17, 34, 51, 68] ∧
      fr.is_extended = false :=
  c2_gvret_roundtrip_rx 7 1 2 3 4 ⟨291, [17, 34, 51, 68], 2, false, false, false, false⟩ 4
    (by decide) (by decide) (by decide) (by decide) (by decide) (by decide)
    (by decide) (by decide) (by decide) (by decide)

/-- C3 counterexample: arbitrary inter-frame noise CAN drop a valid frame.  The
two-byte noise `[0xF1, 0x01]` mimics a TIMEBASE control record, whose 10-byte body
swallows the start of the following valid frame record: parsing two valid records
with that noise between them yields only one frame. -/
theorem c3_counterexample :
    ((parse_gvret_frames 0 ([241, 0, 0, 0, 0, 0, 0, 0, 0, 0, 0] ++ [241, 1] ++
      [241, 0, 0, 0, 0, 0, 0, 0, 0, 0, 0])).1).length = 1 := by decide

/-- C3 (amended): resync robustness holds for noise containing no `0xF1` byte.
For every pair of well-formed GVRET frame records and every noise byte sequence free
of `0xF1` inserted between them, `parse_gvret_frames` still yields both frames. -/
theorem c3_resync_noise (ts : Nat) (rec1 rec2 noise : List Nat)
    (h1 : WFGvretRec rec1) (h2 : WFGvretRec rec2) (hn : ∀ b ∈ noise, b ≠ 241) :
    parse_gvret_frames ts (rec1 ++ (noise ++ rec2)) =
      ([(gvretFrameOfRec ts rec1, hexEncode rec1),
        (gvretFrameOfRec ts rec2, hexEncode rec2)], []) := by
  have hl2 : 11 ≤ rec2.length := by
    rw [h2.2.2.1]; omega
  unfold parse_gvret_frames
  obtain ⟨k, hk⟩ : ∃ k, (rec1 ++ (noise ++ rec2)).length = k + 1 := by
    refine ⟨(rec1 ++ (noise ++ rec2)).length - 1, ?_⟩
    have hl1 : 11 ≤ rec1.length := by rw [h1.2.2.1]; omega
    simp only [List.length_append]
    omega
  rw [hk, parseGvretAux_cons_record ts k rec1 (noise ++ rec2) h1]
  have hne2 : rec2 ≠ [] := by
    intro hcon
    rw [hcon] at hl2
    simp at hl2
  rw [parseGvretAux_skip_noise ts k noise rec2 hn hne2 h2.1]
  obtain ⟨k2, hk2⟩ : ∃ k2, k = k2 + 1 := by
    refine ⟨k - 1, ?_⟩
    have := hk
    rw [List.length_append, List.length_append] at this
    omega
  rw [hk2, parseGvretAux_record_only ts k2 rec2 h2]

/-- Witness for C3 (amended) at two concrete records with noise `[0x42, 0x07]`. -/
theorem c3_resync_noise_witness :
    parse_gvret_frames 5 ([241, 0, 0, 0, 0, 0, 35, 1, 0, 0, 0] ++ ([66, 7] ++
      [241, 0, 0, 0, 0, 0, 127, 0, 0, 0, 0])) =
      ([(gvretFrameOfRec 5 [241, 0, 0, 0, 0, 0, 35, 1, 0, 0, 0],
         hexEncode [241, 0, 0, 0, 0, 0, 35, 1, 0, 0, 0]),
        (gvretFrameOfRec 5 [241, 0, 0, 0, 0, 0, 127, 0, 0, 0, 0],
         hexEncode [241, 0, 0, 0, 0, 0, 127, 0, 0, 0, 0])], []) :=
  c3_resync_noise 5 [241, 0, 0, 0, 0, 0, 35, 1, 0, 0, 0]
    [241, 0, 0, 0, 0, 0, 127, 0, 0, 0, 0] [66, 7] (by decide) (by decide) (by decide)

end CANdor

namespace CANdor

theorem hexDigitVal?_hexUpperDigit {d : Nat} (h : d < 16) :
    hexDigitVal? (hexUpperDigit d) = some d := by
  interval_cases d <;> decide

theorem hexUpperDigit_range {d : Nat} (h : d < 16) :
    48 ≤ hexUpperDigit d ∧ hexUpperDigit d ≤ 70 := by
  unfold hexUpperDigit
  split <;> omega

theorem natHexRevAux_zero (fuel : Nat) : natHexRevAux fuel 0 = [] := by
  cases fuel <;> rfl

theorem natHexRevAux_range : ∀ (fuel n : Nat), ∀ b ∈ natHexRevAux fuel n,
    48 ≤ b ∧ b ≤ 70 := by
  intro fuel
  induction fuel with
  | zero => intro n b hb; simp [natHexRevAux] at hb
  | succ fuel ih =>
    intro n b hb
    unfold natHexRevAux at hb
    split at hb
    · simp at hb
    · rename_i hn
      rcases List.mem_cons.mp hb with rfl | hb
      · exact hexUpperDigit_range (Nat.mod_lt _ (by omega))
      · exact ih _ _ hb

theorem natHexRevAux_length : ∀ (fuel n k : Nat), n ≤ fuel → n < 16 ^ k →
    (natHexRevAux fuel n).length ≤ k := by
  intro fuel
  induction fuel with
  | zero => intro n k _ _; simp [natHexRevAux]
  | succ fuel ih =>
    intro n k hle hlt
    unfold natHexRevAux
    split
    · simp
    · rename_i hn
      have hk : k ≠ 0 := by
        intro hcon
        rw [hcon, pow_zero] at hlt
        omega
      obtain ⟨k1, rfl⟩ := Nat.exists_eq_succ_of_ne_zero hk
      have hdiv : n / 16 < 16 ^ k1 := by
        rw [Nat.div_lt_iff_lt_mul (by omega)]
        calc n < 16 ^ (k1 + 1) := hlt
        _ = 16 ^ k1 * 16 := by ring
      have := ih (n / 16) k1 (by omega) hdiv
      simp only [List.length_cons]
      omega

theorem natHexRevAux_val : ∀ (fuel n a : Nat), n ≤ fuel →
    ((natHexRevAux fuel n).reverse).foldl
      (fun acc b => match acc, hexDigitVal? b with
        | some v, some d => some (v * 16 + d)
        | _, _ => none) (some a) =
      some (a * 16 ^ (natHexRevAux fuel n).length + n) := by
  intro fuel
  induction fuel with
  | zero =>
    intro n a hle
    interval_cases n
    simp [natHexRevAux]
  | succ fuel ih =>
    intro n a hle
    unfold natHexRevAux
    split
    · rename_i hn
      subst hn
      simp
    · rename_i hn
      rw [List.reverse_cons, List.foldl_append,
        ih (n / 16) a (by omega)]
      rw [List.foldl_cons, List.foldl_nil]
      have hd := hexDigitVal?_hexUpperDigit (show n % 16 < 16 from Nat.mod_lt _ (by omega))
      rw [hd]
      simp only [List.length_cons]
      congr 1
      rw [pow_succ, ← Nat.mul_assoc]
      omega

theorem hexListVal?_natHexUpper (n : Nat) : hexListVal? (natHexUpper n) = some n := by
  unfold natHexUpper
  split
  · rename_i hn
    subst hn
    decide
  · unfold hexListVal?
    rw [natHexRevAux_val n n 0 (le_refl n)]
    simp

theorem natHexUpper_range (n : Nat) : ∀ b ∈ natHexUpper n, 48 ≤ b ∧ b ≤ 70 := by
  unfold natHexUpper
  split
  · intro b hb
    simp at hb
    omega
  · intro b hb
    rw [List.mem_reverse] at hb
    exact natHexRevAux_range n n b hb

theorem natHexUpper_ne_nil (n : Nat) : natHexUpper n ≠ [] := by
  unfold natHexUpper
  split
  · simp
  · rename_i hn
    rcases n with _ | m
    · omega
    · show (hexUpperDigit ((m + 1) % 16) :: natHexRevAux m ((m + 1) / 16)).reverse ≠ []
      simp

theorem natHexUpper_length_le {n k : Nat} (hk : 0 < k) (h : n < 16 ^ k) :
    (natHexUpper n).length ≤ k := by
  unfold natHexUpper
  split
  · simpa using hk
  · rw [List.length_reverse]
    exact natHexRevAux_length n n k (le_refl n) h

theorem formatHexPad_length {width n : Nat} (hw : 0 < width) (h : n < 16 ^ width) :
    (formatHexPad width n).length = width := by
  unfold formatHexPad
  rw [List.length_append, List.length_replicate]
  have := natHexUpper_length_le hw h
  omega

theorem formatHexPad_range (width n : Nat) : ∀ b ∈ formatHexPad width n,
    48 ≤ b ∧ b ≤ 70 := by
  intro b hb
  unfold formatHexPad at hb
  rcases List.mem_append.mp hb with hb | hb
  · have := List.eq_of_mem_replicate hb
    omega
  · exact natHexUpper_range n b hb

theorem hexFold_replicate48 : ∀ (m : Nat),
    (List.replicate m 48).foldl
      (fun acc b => match acc, hexDigitVal? b with
        | some v, some d => some (v * 16 + d)
        | _, _ => none) (some 0) = some 0 := by
  intro m
  induction m with
  | zero => rfl
  | succ m ih =>
    rw [List.replicate_succ, List.foldl_cons]
    exact ih

theorem hexListVal?_formatHexPad (width n : Nat) :
    hexListVal? (formatHexPad width n) = some n := by
  unfold formatHexPad hexListVal?
  rw [List.foldl_append, hexFold_replicate48]
  exact hexListVal?_natHexUpper n

theorem fromStrRadix16?_of_digits {bound : Nat} {bs : List Nat} {v : Nat}
    (hne : bs ≠ []) (hd : ∀ b ∈ bs, 48 ≤ b ∧ b ≤ 70)
    (hv : hexListVal? bs = some v) (hb : v < bound) :
    fromStrRadix16? bound bs = some v := by
  match bs, hne with
  | b :: rest, _ =>
    have hb0 := hd b (List.mem_cons_self b rest)
    simp only [fromStrRadix16?]
    rw [if_neg (by omega), if_neg (by omega), hv]
    simp [hb]

theorem fromStrRadix16?_formatHexPad {bound width n : Nat} (h : n < bound) :
    fromStrRadix16? bound (formatHexPad width n) = some n :=
  fromStrRadix16?_of_digits
    (by
      unfold formatHexPad
      simp [natHexUpper_ne_nil n])
    (formatHexPad_range width n) (hexListVal?_formatHexPad width n) h

end CANdor

namespace CANdor

theorem flatMap_pad2_length (data : List Nat) (h : ∀ b ∈ data, b < 256) :
    (data.flatMap (fun b => formatHexPad 2 b)).length = 2 * data.length := by
  induction data with
  | nil => rfl
  | cons b data ih =>
    rw [List.flatMap_cons, List.length_append,
      formatHexPad_length (by omega) (by have := h b (List.mem_cons_self b data); omega),
      ih (fun x hx => h x (List.mem_cons_of_mem b hx))]
    simp only [List.length_cons]
    omega

theorem parseHexBytes_encode : ∀ (data pre suf : List Nat), (∀ b ∈ data, b < 256) →
    parseHexBytes (pre ++ (data.flatMap (fun b => formatHexPad 2 b) ++ suf)) pre.length
      data.length = some data := by
  intro data
  induction data with
  | nil =>
    intro pre suf h
    rfl
  | cons b data ih =>
    intro pre suf h
    have hb : b < 256 := h b (List.mem_cons_self b data)
    have hpadlen : (formatHexPad 2 b).length = 2 :=
      formatHexPad_length (by omega) (by omega)
    have hline : pre ++ ((b :: data).flatMap (fun b => formatHexPad 2 b) ++ suf) =
        pre ++ (formatHexPad 2 b ++ (data.flatMap (fun b => formatHexPad 2 b) ++ suf)) := by
      rw [List.flatMap_cons, List.append_assoc]
    rw [hline]
    show (match fromStrRadix16? 256 ((((pre ++ (formatHexPad 2 b ++
        (data.flatMap (fun b => formatHexPad 2 b) ++ suf)))).drop pre.length).take 2),
        parseHexBytes (pre ++ (formatHexPad 2 b ++
          (data.flatMap (fun b => formatHexPad 2 b) ++ suf))) (pre.length + 2)
          data.length with
      | some b, some bs => some (b :: bs)
      | _, _ => none) = some (b :: data)
    have hdrop : ((pre ++ (formatHexPad 2 b ++
        (data.flatMap (fun b => formatHexPad 2 b) ++ suf)))).drop pre.length =
        formatHexPad 2 b ++ (data.flatMap (fun b => formatHexPad 2 b) ++ suf) :=
      List.drop_left' rfl
    have htake : (formatHexPad 2 b ++
        (data.flatMap (fun b => formatHexPad 2 b) ++ suf)).take 2 = formatHexPad 2 b :=
      List.take_left' hpadlen
    rw [hdrop, htake, fromStrRadix16?_formatHexPad hb]
    have hre : pre ++ (formatHexPad 2 b ++ (data.flatMap (fun b => formatHexPad 2 b) ++ suf)) =
        (pre ++ formatHexPad 2 b) ++ (data.flatMap (fun b => formatHexPad 2 b) ++ suf) := by
      rw [List.append_assoc]
    have hlen2 : pre.length + 2 = (pre ++ formatHexPad 2 b).length := by
      rw [List.length_append, hpadlen]
    rw [hre, hlen2, ih (pre ++ formatHexPad 2 b) suf
      (fun x hx => h x (List.mem_cons_of_mem b hx))]

end CANdor

namespace CANdor

theorem parseSlcanBody_encode_decode (ts : Nat) (isExt : Bool) (b0 fid dlc : Nat)
    (F data : List Nat)
    (hF : F.length = if isExt then 8 else 3)
    (hFd : ∀ b ∈ F, 48 ≤ b ∧ b ≤ 70)
    (hFv : hexListVal? F = some fid) (hfid : fid < 4294967296)
    (hdlc : dlc ≤ 8) (hlen : data.length = dlc) (hdata : ∀ b ∈ data, b < 256) :
    parseSlcanBody ts (b0 :: (F ++ ([hexUpperDigit dlc] ++
      data.flatMap (fun b => formatHexPad 2 b)))) isExt false = some
      { protocol := "can", timestamp_us := ts, frame_id := fid, bus := 0, dlc := dlc,
        bytes := data, is_extended := isExt, is_fd := false, source_address := none,
        incomplete := none, direction := none } := by
  have hlinelen : (b0 :: (F ++ ([hexUpperDigit dlc] ++
      data.flatMap (fun b => formatHexPad 2 b)))).length =
      1 + F.length + 1 + 2 * data.length := by
    simp only [List.length_cons, List.length_append, List.length_nil,
      flatMap_pad2_length data hdata]
    omega
  have hFpos : 0 < F.length := by
    rw [hF]
    cases isExt <;> simp
  have hFne : F ≠ [] := by
    intro hcon
    rw [hcon] at hFpos
    simp at hFpos
  have hfrom : fromStrRadix16? 4294967296
      (((b0 :: (F ++ ([hexUpperDigit dlc] ++
        data.flatMap (fun b => formatHexPad 2 b)))).drop 1).take
        (if isExt then 8 else 3)) = some fid := by
    rw [List.drop_one, List.tail_cons, List.take_left' hF]
    exact fromStrRadix16?_of_digits hFne hFd hFv hfid
  have hgetD : (b0 :: (F ++ ([hexUpperDigit dlc] ++
      data.flatMap (fun b => formatHexPad 2 b)))).getD
      (1 + (if isExt then 8 else 3)) 0 = hexUpperDigit dlc := by
    rw [Nat.add_comm 1 (if isExt then 8 else 3), List.getD_cons_succ, ← hF,
      List.getD_append_right _ _ _ _ (Nat.le_refl F.length)]
    simp
  unfold parseSlcanBody
  rw [if_neg (by rw [hlinelen]; omega)]
  simp only [hfrom, hgetD, hexDigitVal?_hexUpperDigit (show dlc < 16 by omega)]
  rw [if_neg (by omega : ¬ dlc > 8)]
  by_cases hz : dlc = 0
  · subst hz
    have hdata0 : data = [] := List.eq_nil_of_length_eq_zero hlen
    subst hdata0
    rw [if_neg (by simp)]
  · rw [if_pos ⟨trivial, by omega⟩]
    have hsplit : b0 :: (F ++ ([hexUpperDigit dlc] ++
        data.flatMap (fun b => formatHexPad 2 b))) =
        (b0 :: (F ++ [hexUpperDigit dlc])) ++
          (data.flatMap (fun b => formatHexPad 2 b) ++ []) := by
      simp [List.append_assoc]
    have hstart : 1 + (if isExt then 8 else 3) + 1 =
        (b0 :: (F ++ [hexUpperDigit dlc])).length := by
      simp only [List.length_cons, List.length_append, List.length_nil]
      omega
    rw [hsplit, hstart, ← hlen, parseHexBytes_encode data _ [] hdata]
    rw [if_neg (by
      simp only [List.length_append, List.length_cons, List.length_nil,
        flatMap_pad2_length data hdata]
      omega)]
    rfl

end CANdor

namespace CANdor

theorem natHexUpper_lt16 {n : Nat} (h : n < 16) : natHexUpper n = [hexUpperDigit n] := by
  unfold natHexUpper
  split
  · rename_i hz
    subst hz
    rfl
  · rename_i hz
    rcases n with _ | m
    · omega
    · show (hexUpperDigit ((m + 1) % 16) :: natHexRevAux m ((m + 1) / 16)).reverse =
        [hexUpperDigit (m + 1)]
      rw [Nat.mod_eq_of_lt h, Nat.div_eq_of_lt h, natHexRevAux_zero]
      rfl

theorem c4_slcan_roundtrip (ts2 : Nat) (f : FrameMessage)
    (hdlc : f.dlc ≤ 8) (hlen : f.bytes.length = f.dlc) (hbytes : ∀ b ∈ f.bytes, b < 256)
    (hstd : f.is_extended = false → f.frame_id < 2048)
    (hext : f.is_extended = true → f.frame_id < 4294967296) :
    parse_slcan_frame ts2 (encode_slcan_frame f).dropLast = some
      { protocol := "can", timestamp_us := ts2, frame_id := f.frame_id, bus := 0,
        dlc := f.dlc, bytes := f.bytes, is_extended := f.is_extended, is_fd := false,
        source_address := none, incomplete := none, direction := none } := by
  cases hExt : f.is_extended with
  | false =>
    have hid : f.frame_id % 2048 = f.frame_id := Nat.mod_eq_of_lt (hstd hExt)
    have hmin : min f.dlc 8 = f.dlc := Nat.min_eq_left hdlc
    have hform : (encode_slcan_frame f).dropLast =
        116 :: (formatHexPad 3 f.frame_id ++ ([hexUpperDigit f.dlc] ++
          f.bytes.flatMap (fun b => formatHexPad 2 b))) := by
      unfold encode_slcan_frame
      rw [hExt]
      simp only [Bool.false_eq_true, if_false]
      rw [hid, hmin, natHexUpper_lt16 (by omega)]
      rw [List.dropLast_concat]
      simp [List.append_assoc]
    rw [hform]
    exact parseSlcanBody_encode_decode ts2 false 116 f.frame_id f.dlc
      (formatHexPad 3 f.frame_id) f.bytes
      (by simp [formatHexPad_length (show 0 < 3 by omega)
        (show f.frame_id < 16 ^ 3 by have := hstd hExt; omega)])
      (formatHexPad_range 3 f.frame_id) (hexListVal?_formatHexPad 3 f.frame_id)
      (by have := hstd hExt; omega) hdlc hlen hbytes
  | true =>
    have hmin : min f.dlc 8 = f.dlc := Nat.min_eq_left hdlc
    have hform : (encode_slcan_frame f).dropLast =
        84 :: (formatHexPad 8 f.frame_id ++ ([hexUpperDigit f.dlc] ++
          f.bytes.flatMap (fun b => formatHexPad 2 b))) := by
      unfold encode_slcan_frame
      rw [hExt]
      simp only [if_true]
      rw [hmin, natHexUpper_lt16 (by omega)]
      rw [List.dropLast_concat]
      simp [List.append_assoc]
    rw [hform]
    exact parseSlcanBody_encode_decode ts2 true 84 f.frame_id f.dlc
      (formatHexPad 8 f.frame_id) f.bytes
      (by simp [formatHexPad_length (show 0 < 8 by omega)
        (show f.frame_id < 16 ^ 8 by have := hext hExt; omega)])
      (formatHexPad_range 8 f.frame_id) (hexListVal?_formatHexPad 8 f.frame_id)
      (hext hExt) hdlc hlen hbytes

theorem c4_counterexample :
    parse_slcan_frame 0 [114, 49, 50, 51, 52] =
      some ⟨"can", 0, 291, 0, 4, [], false, false, none, none, none⟩ ∧
    parse_slcan_frame 0 ((encode_slcan_frame
      ⟨"can", 0, 291, 0, 4, [], false, false, none, none, none⟩).dropLast) = none :=
  ⟨by decide, by decide⟩

theorem c4_slcan_roundtrip_witness :
    parse_slcan_frame 4 (encode_slcan_frame
      ⟨"can", 9, 675, 0, 2, [222, 173], false, false, none, none, none⟩).dropLast =
      some ⟨"can", 4, 675, 0, 2, [222, 173], false, false, none, none, none⟩ :=
  c4_slcan_roundtrip 4 ⟨"can", 9, 675, 0, 2, [222, 173], false, false, none, none, none⟩
    (by decide) (by decide) (by decide) (by decide) (by decide)

end CANdor

namespace CANdor

theorem toI64_small {n : Nat} (h : n < 9223372036854775808) : toI64 n = (n : Int) := by
  unfold toI64
  rw [Nat.mod_eq_of_lt (by omega), if_pos h]
  omega

theorem bsAux_correct (cmp : Nat → Ordering) (len : Nat)
    (hlt : ∀ j k, j ≤ k → k < len → cmp k = Ordering.lt → cmp j = Ordering.lt)
    (hgt : ∀ j k, j ≤ k → k < len → cmp j = Ordering.gt → cmp k = Ordering.gt) :
    ∀ fuel left right, right ≤ len → left ≤ right → right - left ≤ fuel →
    (∀ j, j < left → cmp j = Ordering.lt) →
    (∀ j, right ≤ j → j < len → cmp j = Ordering.gt) →
    (match bsAux cmp fuel left right with
     | Except.ok i => i < len ∧ cmp i = Ordering.eq
     | Except.error i => i ≤ len ∧ (∀ j, j < i → cmp j = Ordering.lt) ∧
        (∀ j, i ≤ j → j < len → cmp j = Ordering.gt)) := by
  intro fuel
  induction fuel with
  | zero =>
    intro left right hr hlr hf hL hR
    exact ⟨by omega, hL, fun j hj hjl => hR j (by omega) hjl⟩
  | succ fuel ih =>
    intro left right hr hlr hf hL hR
    unfold bsAux
    by_cases hlr2 : left < right
    · rw [if_pos hlr2]
      have hmlt : left + (right - left) / 2 < right := by omega
      have hmge : left ≤ left + (right - left) / 2 := by omega
      cases hc : cmp (left + (right - left) / 2) with
      | lt =>
        simp only [hc]
        exact ih (left + (right - left) / 2 + 1) right hr (by omega) (by omega)
          (fun j hj => hlt j (left + (right - left) / 2) (by omega) (by omega) hc) hR
      | gt =>
        simp only [hc]
        exact ih left (left + (right - left) / 2) (by omega) (by omega) (by omega) hL
          (fun j hj hjl => hgt (left + (right - left) / 2) j hj hjl hc)
      | eq =>
        simp only [hc]
        exact ⟨by omega, trivial⟩
    · rw [if_neg hlr2]
      exact ⟨by omega, hL, fun j hj hjl => hR j (by omega) hjl⟩

end CANdor

namespace CANdor

theorem lookup_isSome_iff (l : List (Nat × FrameMessage)) (k : Nat) :
    (l.lookup k).isSome ↔ k ∈ l.map Prod.fst := by
  induction l with
  | nil => simp [List.lookup]
  | cons p l ih =>
    rcases p with ⟨a, v⟩
    by_cases h : k = a
    · subst h
      simp [List.lookup]
    · rw [List.lookup_cons]
      simp [h, ih, beq_eq_false_iff_ne.mpr h]

theorem getD_mem {frames : List FrameMessage} {n : Nat} (h : n < frames.length) :
    frames.getD n dfltFrame ∈ frames := by
  rw [List.getD_eq_getElem _ _ h]
  exact List.getElem_mem h

theorem keys_complete (frames : List FrameMessage) (acc : List (Nat × FrameMessage))
    (hsub : ∀ k ∈ acc.map Prod.fst, k ∈ frames.map (fun f => f.frame_id))
    (hnodup : (acc.map Prod.fst).Nodup)
    (hlen : distinctIdCount frames ≤ acc.length) :
    ∀ f ∈ frames, ((acc.lookup f.frame_id).isSome) := by
  intro f hf
  rw [lookup_isSome_iff]
  set keys := acc.map Prod.fst with hkeys
  set ids := frames.map (fun f => f.frame_id) with hids
  have h1 : keys.toFinset ⊆ ids.dedup.toFinset := by
    intro x hx
    simp only [List.mem_toFinset] at hx ⊢
    rw [List.mem_dedup]
    exact hsub x hx
  have h2 : ids.dedup.toFinset.card ≤ keys.toFinset.card := by
    rw [List.toFinset_card_of_nodup hnodup, List.toFinset_card_of_nodup (List.nodup_dedup ids)]
    have : keys.length = acc.length := by rw [hkeys, List.length_map]
    unfold distinctIdCount at hlen
    rw [← hids] at hlen
    omega
  have h3 : keys.toFinset = ids.dedup.toFinset := Finset.eq_of_subset_of_card_le h1 h2
  have h4 : f.frame_id ∈ ids.dedup := by
    rw [List.mem_dedup, hids]
    exact List.mem_map_of_mem _ hf
  have h5 : f.frame_id ∈ ids.dedup.toFinset := List.mem_toFinset.mpr h4
  rw [← h3] at h5
  exact List.mem_toFinset.mp h5

end CANdor

namespace CANdor

theorem snapWalk_step (frames : List FrameMessage) (anchor start i : Nat)
    (acc : List (Nat × FrameMessage))
    (hstart : start < frames.length)
    (hwin : ∀ j k, j ≤ k → k ≤ start → outsideWindow anchor (tsAt frames k) →
      outsideWindow anchor (tsAt frames j))
    (hi : i ≤ start)
    (hA1 : ∀ p ∈ acc, p.1 = p.2.frame_id ∧ ∃ idx, i < idx ∧ idx ≤ start ∧
      frames.getD idx dfltFrame = p.2 ∧ ¬ outsideWindow anchor p.2.timestamp_us ∧
      ∀ j, idx < j → j ≤ start → idAt frames j ≠ p.1)
    (hA2 : ∀ idx, i < idx → idx ≤ start → ¬ outsideWindow anchor (tsAt frames idx) →
      ((acc.lookup (idAt frames idx)).isSome))
    (hA3 : (acc.map Prod.fst).Nodup)
    (hin : ¬ outsideWindow anchor (tsAt frames i)) :
    (∀ p ∈ insertIfAbsent acc (frames.getD i dfltFrame),
      p.1 = p.2.frame_id ∧ ∃ idx, i ≤ idx ∧ idx ≤ start ∧
      frames.getD idx dfltFrame = p.2 ∧ ¬ outsideWindow anchor p.2.timestamp_us ∧
      ∀ j, idx < j → j ≤ start → idAt frames j ≠ p.1) ∧
    (∀ idx, i ≤ idx → idx ≤ start → ¬ outsideWindow anchor (tsAt frames idx) →
      (((insertIfAbsent acc (frames.getD i dfltFrame)).lookup (idAt frames idx)).isSome)) ∧
    (((insertIfAbsent acc (frames.getD i dfltFrame)).map Prod.fst).Nodup) := by
  unfold insertIfAbsent
  by_cases hpres : ((acc.lookup (frames.getD i dfltFrame).frame_id).isSome)
  · rw [if_pos hpres]
    refine ⟨?_, ?_, hA3⟩
    · intro p hp
      obtain ⟨h1, idx, hgt, hle, hgd, hw, hlater⟩ := hA1 p hp
      exact ⟨h1, idx, by omega, hle, hgd, hw, hlater⟩
    · intro idx hge hle hwidx
      rcases Nat.eq_or_lt_of_le hge with rfl | hlt2
      · exact hpres
      · exact hA2 idx hlt2 hle hwidx
  · rw [if_neg hpres]
    have hnotmem : (frames.getD i dfltFrame).frame_id ∉ acc.map Prod.fst := by
      rw [← lookup_isSome_iff]
      exact hpres
    refine ⟨?_, ?_, ?_⟩
    · intro p hp
      rcases List.mem_append.mp hp with hp | hp
      · obtain ⟨h1, idx, hgt, hle, hgd, hw, hlater⟩ := hA1 p hp
        exact ⟨h1, idx, by omega, hle, hgd, hw, hlater⟩
      · obtain rfl := List.mem_singleton.mp hp
        refine ⟨rfl, i, Nat.le_refl i, hi, rfl, hin, ?_⟩
        intro j hij hjle heq
        have hwj : ¬ outsideWindow anchor (tsAt frames j) := by
          intro hout
          exact hin (hwin i j (by omega) hjle hout)
        have hsome := hA2 j hij hjle hwj
        rw [heq] at hsome
        exact hpres hsome
    · intro idx hge hle hwidx
      rcases Nat.eq_or_lt_of_le hge with rfl | hlt2
      · rw [List.lookup_append]
        rw [Option.not_isSome_iff_eq_none] at hpres
        rw [hpres]
        simp [List.lookup, idAt, List.getD]
      · have hsome := hA2 idx hlt2 hle hwidx
        rw [List.lookup_append]
        rcases Option.isSome_iff_exists.mp hsome with ⟨v, hv⟩
        rw [hv]
        simp
    · rw [List.map_append]
      simp only [List.nodup_append, List.map_cons, List.map_nil]
      refine ⟨hA3, by simp, ?_⟩
      intro k hk hcon
      simp only [List.mem_cons, List.not_mem_nil, or_false] at hcon
      subst hcon
      exact hnotmem hk

end CANdor

namespace CANdor

theorem snapWalk_out (frames : List FrameMessage) (targetTs allIds i : Nat)
    (acc : List (Nat × FrameMessage))
    (h : outsideWindow targetTs (tsAt frames i)) :
    snapWalk frames targetTs allIds i acc = acc := by
  unfold snapWalk
  rw [if_pos h]

theorem snapWalk_in_stop (frames : List FrameMessage) (targetTs allIds i : Nat)
    (acc : List (Nat × FrameMessage))
    (h : ¬ outsideWindow targetTs (tsAt frames i))
    (hlen : (insertIfAbsent acc (frames.getD i dfltFrame)).length = allIds) :
    snapWalk frames targetTs allIds i acc = insertIfAbsent acc (frames.getD i dfltFrame) := by
  unfold snapWalk
  rw [if_neg h, if_pos hlen]

theorem snapWalk_in_zero (frames : List FrameMessage) (targetTs allIds : Nat)
    (acc : List (Nat × FrameMessage))
    (h : ¬ outsideWindow targetTs (tsAt frames 0))
    (hlen : ¬ (insertIfAbsent acc (frames.getD 0 dfltFrame)).length = allIds) :
    snapWalk frames targetTs allIds 0 acc = insertIfAbsent acc (frames.getD 0 dfltFrame) := by
  unfold snapWalk
  rw [if_neg h, if_neg hlen]

theorem snapWalk_in_succ (frames : List FrameMessage) (targetTs allIds j : Nat)
    (acc : List (Nat × FrameMessage))
    (h : ¬ outsideWindow targetTs (tsAt frames (j + 1)))
    (hlen : ¬ (insertIfAbsent acc (frames.getD (j + 1) dfltFrame)).length = allIds) :
    snapWalk frames targetTs allIds (j + 1) acc =
      snapWalk frames targetTs allIds j (insertIfAbsent acc (frames.getD (j + 1) dfltFrame)) := by
  conv_lhs => rw [snapWalk]
  rw [if_neg h, if_neg hlen]

end CANdor

namespace CANdor

theorem snapWalk_spec (frames : List FrameMessage) (anchor start : Nat)
    (hstart : start < frames.length)
    (hwin : ∀ j k, j ≤ k → k ≤ start → outsideWindow anchor (tsAt frames k) →
      outsideWindow anchor (tsAt frames j)) :
    ∀ i acc, i ≤ start →
    (∀ p ∈ acc, p.1 = p.2.frame_id ∧ ∃ idx, i < idx ∧ idx ≤ start ∧
      frames.getD idx dfltFrame = p.2 ∧ ¬ outsideWindow anchor p.2.timestamp_us ∧
      ∀ j, idx < j → j ≤ start → idAt frames j ≠ p.1) →
    (∀ idx, i < idx → idx ≤ start → ¬ outsideWindow anchor (tsAt frames idx) →
      ((acc.lookup (idAt frames idx)).isSome)) →
    ((acc.map Prod.fst).Nodup) →
    ((∀ p ∈ snapWalk frames anchor (distinctIdCount frames) i acc,
        p.1 = p.2.frame_id ∧ ∃ idx, idx ≤ start ∧
        frames.getD idx dfltFrame = p.2 ∧ ¬ outsideWindow anchor p.2.timestamp_us ∧
        ∀ j, idx < j → j ≤ start → idAt frames j ≠ p.1) ∧
     (∀ idx, idx ≤ start → ¬ outsideWindow anchor (tsAt frames idx) →
        (((snapWalk frames anchor (distinctIdCount frames) i acc).lookup
          (idAt frames idx)).isSome)) ∧
     (((snapWalk frames anchor (distinctIdCount frames) i acc).map Prod.fst).Nodup)) := by
  intro i
  induction i with
  | zero =>
    intro acc hi hA1 hA2 hA3
    by_cases hout : outsideWindow anchor (tsAt frames 0)
    · rw [snapWalk_out frames anchor _ 0 acc hout]
      refine ⟨?_, ?_, hA3⟩
      · intro p hp
        obtain ⟨h1, idx, hgt, hle, hgd, hw, hlater⟩ := hA1 p hp
        exact ⟨h1, idx, hle, hgd, hw, hlater⟩
      · intro idx hle hwidx
        rcases Nat.eq_zero_or_pos idx with rfl | hpos
        · exact absurd hout hwidx
        · exact hA2 idx (by omega) hle hwidx
    · obtain ⟨hB1, hB2, hB3⟩ :=
        snapWalk_step frames anchor start 0 acc hstart hwin hi hA1 hA2 hA3 hout
      have hmain : (∀ p ∈ insertIfAbsent acc (frames.getD 0 dfltFrame),
          p.1 = p.2.frame_id ∧ ∃ idx, idx ≤ start ∧
          frames.getD idx dfltFrame = p.2 ∧ ¬ outsideWindow anchor p.2.timestamp_us ∧
          ∀ j, idx < j → j ≤ start → idAt frames j ≠ p.1) ∧
          (∀ idx, idx ≤ start → ¬ outsideWindow anchor (tsAt frames idx) →
            (((insertIfAbsent acc (frames.getD 0 dfltFrame)).lookup
              (idAt frames idx)).isSome)) ∧
          (((insertIfAbsent acc (frames.getD 0 dfltFrame)).map Prod.fst).Nodup) := by
        refine ⟨?_, ?_, hB3⟩
        · intro p hp
          obtain ⟨h1, idx, hge, hle, hgd, hw, hlater⟩ := hB1 p hp
          exact ⟨h1, idx, hle, hgd, hw, hlater⟩
        · intro idx hle hwidx
          exact hB2 idx (Nat.zero_le idx) hle hwidx
      by_cases hlen : (insertIfAbsent acc (frames.getD 0 dfltFrame)).length =
          distinctIdCount frames
      · rw [snapWalk_in_stop frames anchor _ 0 acc hout hlen]
        exact hmain
      · rw [snapWalk_in_zero frames anchor _ acc hout hlen]
        exact hmain
  | succ j ih =>
    intro acc hi hA1 hA2 hA3
    by_cases hout : outsideWindow anchor (tsAt frames (j + 1))
    · rw [snapWalk_out frames anchor _ (j + 1) acc hout]
      refine ⟨?_, ?_, hA3⟩
      · intro p hp
        obtain ⟨h1, idx, hgt, hle, hgd, hw, hlater⟩ := hA1 p hp
        exact ⟨h1, idx, hle, hgd, hw, hlater⟩
      · intro idx hle hwidx
        rcases Nat.lt_or_ge (j + 1) idx with hgt | hle2
        · exact hA2 idx hgt hle hwidx
        · exact absurd (hwin idx (j + 1) hle2 hi hout) hwidx
    · obtain ⟨hB1, hB2, hB3⟩ :=
        snapWalk_step frames anchor start (j + 1) acc hstart hwin hi hA1 hA2 hA3 hout
      by_cases hlen : (insertIfAbsent acc (frames.getD (j + 1) dfltFrame)).length =
          distinctIdCount frames
      · rw [snapWalk_in_stop frames anchor _ (j + 1) acc hout hlen]
        have hsub : ∀ k ∈ (insertIfAbsent acc (frames.getD (j + 1) dfltFrame)).map Prod.fst,
            k ∈ frames.map (fun f => f.frame_id) := by
          intro k hk
          obtain ⟨p, hp, rfl⟩ := List.mem_map.mp hk
          obtain ⟨h1, idx, hge, hle, hgd, hw, hlater⟩ := hB1 p hp
          rw [h1, ← hgd]
          exact List.mem_map_of_mem _ (getD_mem (by omega))
        have hcomp := keys_complete frames (insertIfAbsent acc (frames.getD (j + 1) dfltFrame))
          hsub hB3 (le_of_eq hlen.symm)
        refine ⟨?_, ?_, hB3⟩
        · intro p hp
          obtain ⟨h1, idx, hge, hle, hgd, hw, hlater⟩ := hB1 p hp
          exact ⟨h1, idx, hle, hgd, hw, hlater⟩
        · intro idx hle hwidx
          exact hcomp (frames.getD idx dfltFrame) (getD_mem (by omega))
      · rw [snapWalk_in_succ frames anchor _ j acc hout hlen]
        refine ih (insertIfAbsent acc (frames.getD (j + 1) dfltFrame)) (by omega) ?_ ?_ hB3
        · intro p hp
          obtain ⟨h1, idx, hge, hle, hgd, hw, hlater⟩ := hB1 p hp
          exact ⟨h1, idx, by omega, hle, hgd, hw, hlater⟩
        · intro idx hgt hle hwidx
          exact hB2 idx (by omega) hle hwidx

end CANdor

namespace CANdor

theorem sortInsert_perm (f : FrameMessage) (l : List FrameMessage) :
    (sortInsert f l).Perm (f :: l) := by
  induction l with
  | nil => exact List.Perm.refl _
  | cons g rest ih =>
    unfold sortInsert
    split
    · exact List.Perm.refl _
    · exact (List.Perm.cons g ih).trans (List.Perm.swap f g rest)

theorem sortByFrameId_perm (l : List FrameMessage) : (sortByFrameId l).Perm l := by
  induction l with
  | nil => exact List.Perm.refl _
  | cons f rest ih => exact (sortInsert_perm f _).trans (List.Perm.cons f ih)

theorem sortInsert_sorted (f : FrameMessage) (l : List FrameMessage)
    (h : l.Pairwise (fun a b => a.frame_id ≤ b.frame_id)) :
    (sortInsert f l).Pairwise (fun a b => a.frame_id ≤ b.frame_id) := by
  induction l with
  | nil => simp [sortInsert]
  | cons g rest ih =>
    rw [List.pairwise_cons] at h
    obtain ⟨hg, hrest⟩ := h
    unfold sortInsert
    split
    · rename_i hle
      rw [List.pairwise_cons]
      refine ⟨?_, ?_⟩
      · intro x hx
        rcases List.mem_cons.mp hx with rfl | hx
        · exact hle
        · exact le_trans hle (hg x hx)
      · rw [List.pairwise_cons]
        exact ⟨hg, hrest⟩
    · rename_i hnle
      rw [List.pairwise_cons]
      refine ⟨?_, ih hrest⟩
      intro x hx
      have hx2 : x ∈ f :: rest := (sortInsert_perm f rest).mem_iff.mp hx
      rcases List.mem_cons.mp hx2 with rfl | hx2
      · omega
      · exact hg x hx2

theorem sortByFrameId_sorted (l : List FrameMessage) :
    (sortByFrameId l).Pairwise (fun a b => a.frame_id ≤ b.frame_id) := by
  induction l with
  | nil => simp [sortByFrameId]
  | cons f rest ih => exact sortInsert_sorted f _ ih

theorem build_snapshot_spec (frames : List FrameMessage) (upTo : Nat)
    (hupTo : upTo < frames.length)
    (hwin : ∀ j k, j ≤ k → k ≤ upTo →
      outsideWindow (tsAt frames upTo) (tsAt frames k) →
      outsideWindow (tsAt frames upTo) (tsAt frames j)) :
    build_snapshot frames upTo ≠ [] ∧
    (∀ fr ∈ build_snapshot frames upTo, ∃ idx, idx ≤ upTo ∧
      frames.getD idx dfltFrame = fr ∧
      ¬ outsideWindow (tsAt frames upTo) fr.timestamp_us ∧
      ∀ j, idx < j → j ≤ upTo → idAt frames j ≠ fr.frame_id) ∧
    (∀ idx, idx ≤ upTo → ¬ outsideWindow (tsAt frames upTo) (tsAt frames idx) →
      ∃ fr ∈ build_snapshot frames upTo, fr.frame_id = idAt frames idx) ∧
    (build_snapshot frames upTo).Pairwise (fun a b => a.frame_id < b.frame_id) := by
  have hnotdeg : ¬ (frames.isEmpty ∨ frames.length ≤ upTo) := by
    intro h
    rcases h with h | h
    · rw [List.isEmpty_iff] at h
      rw [h] at hupTo
      simp at hupTo
    · omega
  obtain ⟨hR1, hR2, hR3⟩ := snapWalk_spec frames (tsAt frames upTo) upTo hupTo hwin upTo []
    (Nat.le_refl upTo) (by intro p hp; simp at hp) (by intro idx h1 h2 _; omega) (by simp)
  have hsnap : build_snapshot frames upTo =
      sortByFrameId ((snapWalk frames (tsAt frames upTo)
        (distinctIdCount frames) upTo []).map Prod.snd) := by
    unfold build_snapshot
    rw [if_neg hnotdeg]
  rw [hsnap]
  have hperm := sortByFrameId_perm
    ((snapWalk frames (tsAt frames upTo) (distinctIdCount frames) upTo []).map Prod.snd)
  have hsome0 : (((snapWalk frames (tsAt frames upTo) (distinctIdCount frames)
      upTo []).lookup (idAt frames upTo)).isSome) := by
    refine hR2 upTo (Nat.le_refl upTo) ?_
    intro hcon
    exact absurd hcon.1 (by omega)
  refine ⟨?_, ?_, ?_, ?_⟩
  · intro hcon
    have hlen := hperm.length_eq
    rw [hcon] at hlen
    simp only [List.length_nil] at hlen
    have hmaplen : (snapWalk frames (tsAt frames upTo) (distinctIdCount frames)
        upTo []).length = 0 := by
      have := List.length_map (snapWalk frames (tsAt frames upTo)
        (distinctIdCount frames) upTo []) Prod.snd
      omega
    rw [List.length_eq_zero] at hmaplen
    rw [hmaplen] at hsome0
    simp [List.lookup] at hsome0
  · intro fr hfr
    obtain ⟨p, hp, rfl⟩ := List.mem_map.mp (hperm.mem_iff.mp hfr)
    obtain ⟨h1, idx, hle, hgd, hw, hlater⟩ := hR1 p hp
    refine ⟨idx, hle, hgd, hw, ?_⟩
    intro j hj1 hj2
    rw [← h1]
    exact hlater j hj1 hj2
  · intro idx hle hwidx
    have hsome := hR2 idx hle hwidx
    rw [lookup_isSome_iff] at hsome
    obtain ⟨p, hp, hfst⟩ := List.mem_map.mp hsome
    obtain ⟨h1, _⟩ := hR1 p hp
    refine ⟨p.2, hperm.mem_iff.mpr (List.mem_map_of_mem _ hp), ?_⟩
    rw [← h1, hfst]
  · have hpw_le := sortByFrameId_sorted
      ((snapWalk frames (tsAt frames upTo) (distinctIdCount frames) upTo []).map
        Prod.snd)
    have hids_eq : ((snapWalk frames (tsAt frames upTo) (distinctIdCount frames)
        upTo []).map Prod.snd).map (fun fr => fr.frame_id) =
        (snapWalk frames (tsAt frames upTo) (distinctIdCount frames) upTo []).map
          Prod.fst := by
      rw [List.map_map]
      exact List.map_congr_left (fun p hp => ((hR1 p hp).1).symm)
    have hnody : ((sortByFrameId ((snapWalk frames (tsAt frames upTo)
        (distinctIdCount frames) upTo []).map Prod.snd)).map
          (fun fr => fr.frame_id)).Nodup := by
      rw [List.Perm.nodup_iff (hperm.map (fun fr => fr.frame_id)), hids_eq]
      exact hR3
    have hpw_ne := List.pairwise_map.mp hnody
    exact (hpw_le.and hpw_ne).imp (fun h => by omega)

end CANdor

namespace CANdor

/-- C5 (amended): processing a seek to time `T` while paused emits, after any
pending-batch flush, exactly one playback-time event followed by exactly one
snapshot batch.  The reader lands on `tIdx`, the first frame whose timestamp is
at or after `T`, clamped to the last frame - not on `T` itself.  The snapshot
is the most recent frame per id at indices at or before `tIdx` within a
120-second lookback window anchored at the landed frame `frames[tIdx]` (not at
`T`); its id set equals the ids present in that window, and it is sorted by
`frame_id` with at most one frame per id.  Timestamps are assumed strictly
increasing and within the `i64` range. -/
theorem c5_seek_snapshot (frames pending : List FrameMessage) (T : Int)
    (hne : frames ≠ [])
    (hsorted : ∀ j, j < frames.length → ∀ i, i < j → tsAt frames i < tsAt frames j)
    (hts : ∀ f ∈ frames, f.timestamp_us < 9223372036854775808) :
    ∃ tIdx snap,
      tIdx < frames.length ∧
      seekEvents frames pending T true =
        ((if pending.isEmpty then [] else [BufferEvent.frameBatch pending]) ++
          [BufferEvent.playbackTime (toI64 (tsAt frames tIdx)),
           BufferEvent.snapshotBatch snap], tIdx) ∧
      (∀ j, j < tIdx → toI64 (tsAt frames j) < T) ∧
      (T ≤ toI64 (tsAt frames tIdx) ∨ tIdx = frames.length - 1) ∧
      snap = build_snapshot frames tIdx ∧
      snap ≠ [] ∧
      (∀ fr ∈ snap, ∃ idx, idx ≤ tIdx ∧ frames.getD idx dfltFrame = fr ∧
        ¬ outsideWindow (tsAt frames tIdx) fr.timestamp_us ∧
        ∀ j, idx < j → j ≤ tIdx → idAt frames j ≠ fr.frame_id) ∧
      (∀ idx, idx ≤ tIdx → ¬ outsideWindow (tsAt frames tIdx) (tsAt frames idx) →
        ∃ fr ∈ snap, fr.frame_id = idAt frames idx) ∧
      snap.Pairwise (fun a b => a.frame_id < b.frame_id) := by
  have hlen0 : 0 < frames.length := List.length_pos.mpr hne
  have hmono : ∀ i k, i ≤ k → k < frames.length → tsAt frames i ≤ tsAt frames k := by
    intro i k hik hk
    rcases Nat.eq_or_lt_of_le hik with rfl | hlt
    · exact Nat.le_refl _
    · exact Nat.le_of_lt (hsorted k hk i hlt)
  have htsb : ∀ i, i < frames.length → tsAt frames i < 9223372036854775808 :=
    fun i hi => hts _ (getD_mem hi)
  have hbs := bsAux_correct
    (fun k => compare (toI64 ((frames.getD k dfltFrame).timestamp_us)) T) frames.length
    (by
      intro j k hjk hk hck
      rw [compare_lt_iff_lt] at hck ⊢
      rw [toI64_small (htsb k hk)] at hck
      rw [toI64_small (htsb j (by omega))]
      have := hmono j k hjk hk
      omega)
    (by
      intro j k hjk hk hcj
      rw [compare_gt_iff_gt] at hcj ⊢
      rw [toI64_small (htsb j (by omega))] at hcj
      rw [toI64_small (htsb k hk)]
      have := hmono j k hjk hk
      omega)
    (frames.length + 1) 0 frames.length (Nat.le_refl _) (Nat.zero_le _) (by omega)
    (by intro j hj; exact absurd hj (Nat.not_lt_zero j))
    (by intro j h1 h2; exact absurd h2 (by omega))
  cases hres : bsAux
      (fun k => compare (toI64 ((frames.getD k dfltFrame).timestamp_us)) T)
      (frames.length + 1) 0 frames.length with
  | ok i =>
    rw [hres] at hbs
    obtain ⟨htIdx, hceq⟩ := hbs
    have hTeq : toI64 (tsAt frames i) = T := compare_eq_iff_eq.mp hceq
    have hjlt : ∀ j, j < i → toI64 (tsAt frames j) < T := by
      intro j hj
      rw [toI64_small (htsb j (by omega)), ← hTeq, toI64_small (htsb i htIdx)]
      have := hsorted i htIdx j hj
      omega
    have hwin : ∀ j k, j ≤ k → k ≤ i →
        outsideWindow (tsAt frames i) (tsAt frames k) →
        outsideWindow (tsAt frames i) (tsAt frames j) := by
      intro j k hjk hk hout
      have := hmono j k hjk (by omega)
      exact ⟨by omega, by omega⟩
    obtain ⟨hsne, hS1, hS2, hS3⟩ := build_snapshot_spec frames i htIdx hwin
    have hget : frames.get? i = some (frames.getD i dfltFrame) := by
      rw [List.get?_eq_getElem?, List.getElem?_eq_getElem htIdx,
        List.getD_eq_getElem _ _ htIdx]
    have hsnapE : (build_snapshot frames i).isEmpty = false := by
      rw [← Bool.not_eq_true, List.isEmpty_iff]
      exact hsne
    have hseek : seekEvents frames pending T true =
        ((if pending.isEmpty then [] else [BufferEvent.frameBatch pending]) ++
          [BufferEvent.playbackTime (toI64 (tsAt frames i)),
           BufferEvent.snapshotBatch (build_snapshot frames i)], i) := by
      unfold seekEvents binarySearchBy
      simp only [hres, hget, hsnapE]
      simp
      simp [tsAt, List.getD_eq_getElem?_getD]
    exact ⟨i, build_snapshot frames i, htIdx, hseek, hjlt, Or.inl (le_of_eq hTeq.symm),
      rfl, hsne, hS1, hS2, hS3⟩
  | error i =>
    rw [hres] at hbs
    obtain ⟨hile, hLlt, hRgt⟩ := hbs
    have htIdx : min i (frames.length - 1) < frames.length := by omega
    have hjlt : ∀ j, j < min i (frames.length - 1) → toI64 (tsAt frames j) < T := by
      intro j hj
      have := hLlt j (by omega)
      rw [compare_lt_iff_lt] at this
      exact this
    have hdisj : T ≤ toI64 (tsAt frames (min i (frames.length - 1))) ∨
        min i (frames.length - 1) = frames.length - 1 := by
      by_cases hi : i < frames.length
      · left
        have hmin : min i (frames.length - 1) = i := by omega
        rw [hmin]
        have := hRgt i (Nat.le_refl i) hi
        rw [compare_gt_iff_gt] at this
        exact le_of_lt this
      · right
        omega
    have hwin : ∀ j k, j ≤ k → k ≤ min i (frames.length - 1) →
        outsideWindow (tsAt frames (min i (frames.length - 1))) (tsAt frames k) →
        outsideWindow (tsAt frames (min i (frames.length - 1))) (tsAt frames j) := by
      intro j k hjk hk hout
      have := hmono j k hjk (by omega)
      exact ⟨by omega, by omega⟩
    obtain ⟨hsne, hS1, hS2, hS3⟩ := build_snapshot_spec frames (min i (frames.length - 1))
      htIdx hwin
    have hget : frames.get? (min i (frames.length - 1)) =
        some (frames.getD (min i (frames.length - 1)) dfltFrame) := by
      rw [List.get?_eq_getElem?, List.getElem?_eq_getElem htIdx,
        List.getD_eq_getElem _ _ htIdx]
    have hsnapE : (build_snapshot frames (min i (frames.length - 1))).isEmpty = false := by
      rw [← Bool.not_eq_true, List.isEmpty_iff]
      exact hsne
    have hseek : seekEvents frames pending T true =
        ((if pending.isEmpty then [] else [BufferEvent.frameBatch pending]) ++
          [BufferEvent.playbackTime (toI64 (tsAt frames (min i (frames.length - 1)))),
           BufferEvent.snapshotBatch (build_snapshot frames (min i (frames.length - 1)))],
          min i (frames.length - 1)) := by
      unfold seekEvents binarySearchBy
      simp only [hres, hget, hsnapE]
      simp
      simp [tsAt, List.getD_eq_getElem?_getD]
    exact ⟨min i (frames.length - 1), build_snapshot frames (min i (frames.length - 1)),
      htIdx, hseek, hjlt, hdisj, rfl, hsne, hS1, hS2, hS3⟩

end CANdor

namespace CANdor

/-- C5 counterexample: the claimed id set over `(-inf, T]` is wrong.  Seeking
to T = 10 ms while paused in a buffer holding id 1 at t = 0 and id 2 at
t = 20 ms lands on the frame after `T` (binary search returns the insertion
point), and the emitted snapshot contains the id-2 frame whose timestamp
exceeds `T`, while the spec would allow only id 1. -/
theorem c5_counterexample :
    (seekEvents [{ protocol := "can", timestamp_us := 0, frame_id := 1, bus := 0, dlc := 0, bytes := [], is_extended := false, is_fd := false, source_address := none, incomplete := none, direction := none }, { protocol := "can", timestamp_us := 20000000, frame_id := 2, bus := 0, dlc := 0, bytes := [], is_extended := false, is_fd := false, source_address := none, incomplete := none, direction := none }] [] 10000000 true).1 =
      [BufferEvent.playbackTime 20000000,
       BufferEvent.snapshotBatch [{ protocol := "can", timestamp_us := 0, frame_id := 1, bus := 0, dlc := 0, bytes := [], is_extended := false, is_fd := false, source_address := none, incomplete := none, direction := none }, { protocol := "can", timestamp_us := 20000000, frame_id := 2, bus := 0, dlc := 0, bytes := [], is_extended := false, is_fd := false, source_address := none, incomplete := none, direction := none }]] ∧
    (10000000 : Int) <
      toI64 (tsAt [{ protocol := "can", timestamp_us := 0, frame_id := 1, bus := 0, dlc := 0, bytes := [], is_extended := false, is_fd := false, source_address := none, incomplete := none, direction := none }, { protocol := "can", timestamp_us := 20000000, frame_id := 2, bus := 0, dlc := 0, bytes := [], is_extended := false, is_fd := false, source_address := none, incomplete := none, direction := none }] 1) :=
  ⟨by decide, by decide⟩

/-- Witness for C5 (amended) on a concrete two-frame buffer. -/
theorem c5_seek_snapshot_witness :
    ∃ tIdx snap,
      tIdx < ([{ protocol := "can", timestamp_us := 0, frame_id := 1, bus := 0, dlc := 0, bytes := [], is_extended := false, is_fd := false, source_address := none, incomplete := none, direction := none }, { protocol := "can", timestamp_us := 20000000, frame_id := 2, bus := 0, dlc := 0, bytes := [], is_extended := false, is_fd := false, source_address := none, incomplete := none, direction := none }] : List FrameMessage).length ∧
      seekEvents [{ protocol := "can", timestamp_us := 0, frame_id := 1, bus := 0, dlc := 0, bytes := [], is_extended := false, is_fd := false, source_address := none, incomplete := none, direction := none }, { protocol := "can", timestamp_us := 20000000, frame_id := 2, bus := 0, dlc := 0, bytes := [], is_extended := false, is_fd := false, source_address := none, incomplete := none, direction := none }] ([] : List FrameMessage) 10000000 true =
        ((if ([] : List FrameMessage).isEmpty then []
          else [BufferEvent.frameBatch ([] : List FrameMessage)]) ++
          [BufferEvent.playbackTime (toI64 (tsAt [{ protocol := "can", timestamp_us := 0, frame_id := 1, bus := 0, dlc := 0, bytes := [], is_extended := false, is_fd := false, source_address := none, incomplete := none, direction := none }, { protocol := "can", timestamp_us := 20000000, frame_id := 2, bus := 0, dlc := 0, bytes := [], is_extended := false, is_fd := false, source_address := none, incomplete := none, direction := none }] tIdx)),
           BufferEvent.snapshotBatch snap], tIdx) ∧
      (∀ j, j < tIdx → toI64 (tsAt [{ protocol := "can", timestamp_us := 0, frame_id := 1, bus := 0, dlc := 0, bytes := [], is_extended := false, is_fd := false, source_address := none, incomplete := none, direction := none }, { protocol := "can", timestamp_us := 20000000, frame_id := 2, bus := 0, dlc := 0, bytes := [], is_extended := false, is_fd := false, source_address := none, incomplete := none, direction := none }] j) < 10000000) ∧
      ((10000000 : Int) ≤ toI64 (tsAt [{ protocol := "can", timestamp_us := 0, frame_id := 1, bus := 0, dlc := 0, bytes := [], is_extended := false, is_fd := false, source_address := none, incomplete := none, direction := none }, { protocol := "can", timestamp_us := 20000000, frame_id := 2, bus := 0, dlc := 0, bytes := [], is_extended := false, is_fd := false, source_address := none, incomplete := none, direction := none }] tIdx) ∨
        tIdx = ([{ protocol := "can", timestamp_us := 0, frame_id := 1, bus := 0, dlc := 0, bytes := [], is_extended := false, is_fd := false, source_address := none, incomplete := none, direction := none }, { protocol := "can", timestamp_us := 20000000, frame_id := 2, bus := 0, dlc := 0, bytes := [], is_extended := false, is_fd := false, source_address := none, incomplete := none, direction := none }] : List FrameMessage).length - 1) ∧
      snap = build_snapshot [{ protocol := "can", timestamp_us := 0, frame_id := 1, bus := 0, dlc := 0, bytes := [], is_extended := false, is_fd := false, source_address := none, incomplete := none, direction := none }, { protocol := "can", timestamp_us := 20000000, frame_id := 2, bus := 0, dlc := 0, bytes := [], is_extended := false, is_fd := false, source_address := none, incomplete := none, direction := none }] tIdx ∧
      snap ≠ [] ∧
      (∀ fr ∈ snap, ∃ idx, idx ≤ tIdx ∧
        ([{ protocol := "can", timestamp_us := 0, frame_id := 1, bus := 0, dlc := 0, bytes := [], is_extended := false, is_fd := false, source_address := none, incomplete := none, direction := none }, { protocol := "can", timestamp_us := 20000000, frame_id := 2, bus := 0, dlc := 0, bytes := [], is_extended := false, is_fd := false, source_address := none, incomplete := none, direction := none }] : List FrameMessage).getD idx dfltFrame = fr ∧
        ¬ outsideWindow (tsAt [{ protocol := "can", timestamp_us := 0, frame_id := 1, bus := 0, dlc := 0, bytes := [], is_extended := false, is_fd := false, source_address := none, incomplete := none, direction := none }, { protocol := "can", timestamp_us := 20000000, frame_id := 2, bus := 0, dlc := 0, bytes := [], is_extended := false, is_fd := false, source_address := none, incomplete := none, direction := none }] tIdx) fr.timestamp_us ∧
        ∀ j, idx < j → j ≤ tIdx → idAt [{ protocol := "can", timestamp_us := 0, frame_id := 1, bus := 0, dlc := 0, bytes := [], is_extended := false, is_fd := false, source_address := none, incomplete := none, direction := none }, { protocol := "can", timestamp_us := 20000000, frame_id := 2, bus := 0, dlc := 0, bytes := [], is_extended := false, is_fd := false, source_address := none, incomplete := none, direction := none }] j ≠ fr.frame_id) ∧
      (∀ idx, idx ≤ tIdx → ¬ outsideWindow (tsAt [{ protocol := "can", timestamp_us := 0, frame_id := 1, bus := 0, dlc := 0, bytes := [], is_extended := false, is_fd := false, source_address := none, incomplete := none, direction := none }, { protocol := "can", timestamp_us := 20000000, frame_id := 2, bus := 0, dlc := 0, bytes := [], is_extended := false, is_fd := false, source_address := none, incomplete := none, direction := none }] tIdx)
          (tsAt [{ protocol := "can", timestamp_us := 0, frame_id := 1, bus := 0, dlc := 0, bytes := [], is_extended := false, is_fd := false, source_address := none, incomplete := none, direction := none }, { protocol := "can", timestamp_us := 20000000, frame_id := 2, bus := 0, dlc := 0, bytes := [], is_extended := false, is_fd := false, source_address := none, incomplete := none, direction := none }] idx) →
        ∃ fr ∈ snap, fr.frame_id = idAt [{ protocol := "can", timestamp_us := 0, frame_id := 1, bus := 0, dlc := 0, bytes := [], is_extended := false, is_fd := false, source_address := none, incomplete := none, direction := none }, { protocol := "can", timestamp_us := 20000000, frame_id := 2, bus := 0, dlc := 0, bytes := [], is_extended := false, is_fd := false, source_address := none, incomplete := none, direction := none }] idx) ∧
      snap.Pairwise (fun a b => a.frame_id < b.frame_id) :=
  c5_seek_snapshot [{ protocol := "can", timestamp_us := 0, frame_id := 1, bus := 0, dlc := 0, bytes := [], is_extended := false, is_fd := false, source_address := none, incomplete := none, direction := none }, { protocol := "can", timestamp_us := 20000000, frame_id := 2, bus := 0, dlc := 0, bytes := [], is_extended := false, is_fd := false, source_address := none, incomplete := none, direction := none }] [] 10000000 (by decide) (by decide) (by decide)

end CANdor
